import Mathlib

/-!
BosonUSB: capture, AGC and recording

A shallow embedding of `src/BosonUSB.cpp`: the 16-bit to 8-bit linear AGC
(`AGC_Basic_Linear`), the command-line option loop, the V4L2 set-up sequence,
the capture loop with its recording branches, and the teardown of `main`.

Conventions of the embedding:

* Arithmetic on `unsigned int` is written on `Nat` with an explicit reduction
  modulo `2 ^ 32` after every operation; an integer division by zero is a fault.
* The counter `frame` (a `long`) is a `Nat`: it is only ever incremented from 0
  and the claims concern runs far below `2 ^ 63`.
* Everything the program obtains from outside (results of `open`, `ioctl`,
  `mmap`, `imwrite`, `waitKey`, and the frame bytes the driver leaves in the
  mapped buffer) is read from an explicit environment record `Env`.
* The program's effects are recorded as the list of operating-system calls it
  makes and the list of image files it has written.
* `for (;;)` is unrolled with fuel; a loop that is still running when the fuel
  is used up is reported as such.
* Not part of the model: text printed by `printf`, `perror` and `print_help`,
  the pixel contents produced by `resize` and `cvtColor`, the contents of the
  image files, and the overrun of the fixed-size character arrays by long
  arguments.
-/

namespace BosonUSB

/-! ## Matrices and 32-bit unsigned arithmetic -/

/-- An 8-bit unsigned value, the C type `uchar`. -/
abbrev uchar := Fin 256

/-- Conversion `(uchar) x`: keep the low eight bits. -/
def toUchar (x : Nat) : uchar := ⟨x % 256, Nat.mod_lt x (by decide)⟩

/-- An OpenCV matrix as the program sees it: the header dimensions given to the
constructor and the byte accessor `at<uchar>(i, c)` (row `i`, byte column `c`). -/
structure Mat where
  rows : Nat
  cols : Nat
  data : Nat → Nat → uchar

/-- The assignment `m.at<uchar>(i, j) = v`. -/
def Mat.set (m : Mat) (i j : Nat) (v : uchar) : Mat :=
  { m with data := fun r c => if r = i ∧ c = j then v else m.data r c }

/-- The matrix constructor `Mat(rows, cols, type, Scalar(v))`: every byte is `v`. -/
def Mat.filled (rows cols : Nat) (v : uchar) : Mat :=
  { rows := rows, cols := cols, data := fun _ _ => v }

/-- Addition of two `unsigned int`. -/
def add32 (a b : Nat) : Nat := (a + b) % 4294967296

/-- Subtraction of two `unsigned int` (wraps around below zero). -/
def sub32 (a b : Nat) : Nat := (a % 4294967296 + 4294967296 - b % 4294967296) % 4294967296

/-- Multiplication of two `unsigned int`. -/
def mul32 (a b : Nat) : Nat := (a * b) % 4294967296

/-- Left shift of an `unsigned int`. -/
def shl32 (a k : Nat) : Nat := (a <<< k) % 4294967296

/-- Abnormal terminations of the process that are not an `exit(1)`. -/
inductive Fault where
  | divByZero
  | imwriteException
  deriving DecidableEq, Repr

/-- A counted loop `for (k = 0; k < n; k++) s = body k s`. -/
def forUpTo {σ : Type} (n : Nat) (body : Nat → σ → σ) (s : σ) : σ :=
  match n with
  | 0 => s
  | k + 1 => body k (forUpTo k body s)

/-- A counted loop whose body may fault; the first fault ends the loop. -/
def forUpToM {σ : Type} (n : Nat) (body : Nat → σ → Except Fault σ) (s : σ) :
    Except Fault σ :=
  match n with
  | 0 => .ok s
  | k + 1 =>
    match forUpToM k body s with
    | .ok s1 => body k s1
    | .error e => .error e

/-! ## `AGC_Basic_Linear` (source lines 73 to 109) -/

/-- Lines 84 to 86 (and 100 to 102): the value `value3` read for pixel `(i, j)`. -/
def readValue3 (input_16 : Mat) (i j : Nat) : Nat :=
  let value1 := (input_16.data i (j * 2 + 1)).val &&& 0xFF
  let value2 := (input_16.data i (j * 2)).val &&& 0xFF
  add32 (shl32 value1 8) value2

/-- Lines 87 to 92: the update of `(min1, max1)` by one sample. -/
def minMaxStep (value3 : Nat) (mm : Nat × Nat) : Nat × Nat :=
  let min1 := if value3 ≤ mm.1 then value3 else mm.1
  let max1 := if value3 ≥ mm.2 then value3 else mm.2
  (min1, max1)

/-- Lines 77 to 95: the first pair of loops; returns `(min1, max1)`. -/
def agcMinMax (input_16 : Mat) (height width : Nat) : Nat × Nat :=
  forUpTo height
    (fun i mm => forUpTo width (fun j mm => minMaxStep (readValue3 input_16 i j) mm) mm)
    (0xFFFF, 0)

/-- Lines 103 to 106: the body of the second loop for one pixel.  The integer
division faults when the divisor `max1 - min1` is zero. -/
def agcStore (input_16 : Mat) (min1 max1 : Nat) (i j : Nat) (output_8 : Mat) :
    Except Fault Mat :=
  let value3 := readValue3 input_16 i j
  if sub32 max1 min1 = 0 then .error .divByZero
  else
    let value4 := mul32 255 (sub32 value3 min1) / sub32 max1 min1
    .ok (output_8.set i j (toUchar (value4 &&& 0xFF)))

/-- The function `AGC_Basic_Linear`: the matrix `output_8` after the call, or the
fault raised by the division. -/
def AGC_Basic_Linear (input_16 output_8 : Mat) (height width : Nat) : Except Fault Mat :=
  let mm := agcMinMax input_16 height width
  forUpToM height
    (fun i out => forUpToM width (fun j out => agcStore input_16 mm.1 mm.2 i j out) out)
    output_8

/-- The 16-bit little-endian sample of pixel `(i, j)`: low byte at byte column
`2 j`, high byte at byte column `2 j + 1`. -/
def sample16 (input_16 : Mat) (i j : Nat) : Nat :=
  (input_16.data i (2 * j)).val + 256 * (input_16.data i (2 * j + 1)).val

/-- A scalar `mn` is the minimum sample of the `height x width` frame. -/
def IsFrameMin (input_16 : Mat) (height width mn : Nat) : Prop :=
  (∃ i j, i < height ∧ j < width ∧ sample16 input_16 i j = mn) ∧
  ∀ i j, i < height → j < width → mn ≤ sample16 input_16 i j

/-- A scalar `mx` is the maximum sample of the `height x width` frame. -/
def IsFrameMax (input_16 : Mat) (height width mx : Nat) : Prop :=
  (∃ i j, i < height ∧ j < width ∧ sample16 input_16 i j = mx) ∧
  ∀ i j, i < height → j < width → sample16 input_16 i j ≤ mx

/-- The byte the second loop stores for a sample `v`, given `min1` and `max1`. -/
def agcByte (min1 max1 v : Nat) : uchar :=
  toUchar ((mul32 255 (sub32 v min1) / sub32 max1 min1) &&& 0xFF)

/-! ## Command-line options (source lines 141 to 237) -/

/-- Types of sensors supported. -/
inductive BosonSensorTypes where
  | Boson320
  | Boson640
  deriving DecidableEq, Repr

/-- Types of video formats supported. -/
inductive BosonVideFormats where
  | YUV
  | RAW16
  deriving DecidableEq, Repr

/-- The locals of `main` that the option loop sets and the rest of `main` reads. -/
structure Options where
  video_mode : BosonVideFormats
  video_frames : Int
  zoom_enable : Int
  record_enable : Int
  video : String
  folder_name : String
  filename : String
  thermal_sensor_name : String
  boson_sensor : BosonSensorTypes
  deriving DecidableEq, Repr

/-- Contents of the locals that `main` declares without initialising them
(`folder_name`, `filename`, `thermal_sensor_name`, `boson_sensor`): whatever
they hold when the option loop starts. -/
structure Indeterminate where
  folder_name : String
  filename : String
  thermal_sensor_name : String
  boson_sensor : BosonSensorTypes
  deriving DecidableEq, Repr

/-- Lines 161 to 165: the default program options. -/
def defaultOptions (g : Indeterminate) : Options :=
  { video_mode := .RAW16
    video_frames := 0
    zoom_enable := 0
    record_enable := 0
    video := "/dev/video0"
    folder_name := g.folder_name
    filename := g.filename
    thermal_sensor_name := g.thermal_sensor_name
    boson_sensor := g.boson_sensor }

/-- The character `s[k]` of a C string (the terminating NUL past its end). -/
def charAt (s : String) (k : Nat) : Char := s.data.getD k (Char.ofNat 0)

/-- The C string `s + 1`. -/
def fromSecond (s : String) : String := ⟨s.data.drop 1⟩

/-- The C function `strlen`. -/
def strlen (s : String) : Nat := s.data.length

/-- The C predicate `isspace` in the default locale. -/
def isspace (c : Char) : Bool :=
  c = ' ' || c = '\t' || c = '\n' || c = '\r' || c.toNat = 11 || c.toNat = 12

/-- The digits read by `atoi`, accumulated in base ten. -/
def atoiDigits : List Char → Int → Int
  | [], acc => acc
  | c :: cs, acc =>
    if c.isDigit then atoiDigits cs (acc * 10 + ((c.toNat : Int) - 48)) else acc

/-- The C function `atoi` on a value that fits an `int`: leading white space,
an optional sign, then decimal digits. -/
def atoi (s : String) : Int :=
  match s.data.dropWhile isspace with
  | '-' :: r => - atoiDigits r 0
  | '+' :: r => atoiDigits r 0
  | r => atoiDigits r 0

/-- Lines 176 to 236: the body of the option loop for the argument `a = argv[i]`
(the text printed by `print_help` and by `printf` is not part of the model). -/
def parseArg (o : Options) (a : String) : Options :=
  let o := if charAt a 0 = 'r' then { o with video_mode := .RAW16 } else o
  let o := if charAt a 0 = 'y' then { o with video_mode := .YUV } else o
  let o := if charAt a 0 = 'z' then { o with zoom_enable := 1 } else o
  let o :=
    if charAt a 0 = 'f' then
      { o with
        record_enable := 1
        folder_name := if strlen a > 2 then fromSecond a else "boson" }
    else o
  let o :=
    if charAt a 0 = 's' then
      { o with boson_sensor := if charAt a 1 = 'B' then .Boson640 else .Boson320 }
    else o
  let o := if charAt a 0 = 'n' then { o with filename := fromSecond a } else o
  let o :=
    if charAt a 0 = 'v' then { o with video := "/dev/video" ++ fromSecond a } else o
  let o :=
    if charAt a 0 = 't' then
      if strlen a ≥ 2 then { o with video_frames := atoi (fromSecond a) } else o
    else o
  o

/-- Lines 175 to 237: the option loop over `argv[0] .. argv[argc - 1]`. -/
def parseArgs (g : Indeterminate) (argv : List String) : Options :=
  argv.foldl parseArg (defaultOptions g)

/-! ## The outside world -/

/-- The fields of `struct v4l2_format` the program touches. -/
structure v4l2_format where
  pixelformat : Nat
  width : Nat
  height : Nat
  deriving DecidableEq, Repr

/-- The fourcc code `V4L2_PIX_FMT_Y16`. -/
def V4L2_PIX_FMT_Y16 : Nat := 0x20363159

/-- The fourcc code `V4L2_PIX_FMT_YVU420`. -/
def V4L2_PIX_FMT_YVU420 : Nat := 0x32315659

/-- The capability bit `V4L2_CAP_VIDEO_CAPTURE`. -/
def V4L2_CAP_VIDEO_CAPTURE : Nat := 0x00000001

/-- The ways a call of `imwrite` can end. -/
inductive ImwriteResult where
  | written
  | failed
  | threw
  deriving DecidableEq, Repr

/-- Everything the program receives from the kernel, the driver, the image
library and the keyboard.  Calls inside the capture loop are indexed by the
number of the iteration, counted from zero. -/
structure Env where
  /-- Result of `open(video, O_RDWR)`: a descriptor, negative on failure. -/
  openResult : String → Int
  /-- `VIDIOC_QUERYCAP`: the capability word, or `none` when the call fails. -/
  querycap : Option Nat
  /-- `VIDIOC_S_FMT`: the format the driver writes back, or `none` on failure. -/
  s_fmt : v4l2_format → Option v4l2_format
  /-- `VIDIOC_REQBUFS` succeeds. -/
  reqbufs : Bool
  /-- `VIDIOC_QUERYBUF` succeeds. -/
  querybuf : Bool
  /-- The call of `mmap` does not return `MAP_FAILED`. -/
  mmap : Bool
  /-- `VIDIOC_STREAMON` succeeds. -/
  streamon : Bool
  /-- `VIDIOC_QBUF` succeeds in the given iteration. -/
  qbuf : Nat → Bool
  /-- `VIDIOC_DQBUF` in the given iteration: the bytes of the mapped buffer
  after the call, by byte offset, or `none` when the call fails. -/
  dqbuf : Nat → Option (Nat → uchar)
  /-- The outcome of `imwrite` on a path in the given iteration. -/
  imwrite : Nat → String → ImwriteResult
  /-- The key code returned by `waitKey(1)` in the given iteration. -/
  waitKey : Nat → Int
  /-- `VIDIOC_STREAMOFF` succeeds. -/
  streamoff : Bool

/-- The `ioctl` requests the program issues. -/
inductive Ioctl where
  | QUERYCAP
  | S_FMT
  | REQBUFS
  | QUERYBUF
  | STREAMON
  | QBUF
  | DQBUF
  | STREAMOFF
  deriving DecidableEq, Repr

/-- Operating-system calls, as recorded in the order the program makes them. -/
inductive Call where
  | mkdir (path : String)
  | chdir (path : String)
  | openDevice (path : String)
  | ioctl (request : Ioctl)
  | mmap
  /-- Never issued by the program; listed so that claims on unmapping can be stated. -/
  | munmap
  | close
  deriving DecidableEq, Repr

/-- The places where `main` calls `exit(1)`. -/
inductive Step where
  | openDevice
  | querycap
  | capability
  | s_fmt
  | reqbufs
  | querybuf
  | mmap
  | streamon
  | qbuf
  | dqbuf
  | streamoff
  deriving DecidableEq, Repr

/-! ## Set-up (source lines 239 to 396) -/

/-- The state of `main` when the capture loop is entered. -/
structure Session where
  /-- The global `width`. -/
  width : Nat
  /-- The global `height`. -/
  height : Nat
  /-- The local `format` as the driver left it after `VIDIOC_S_FMT`. -/
  format : v4l2_format
  /-- Calls made so far. -/
  sys : List Call
  deriving DecidableEq, Repr

/-- Lines 274 to 295: the pixel format, width and height that `main` stores in
the globals and asks the driver for. -/
def requestedFormat (o : Options) : v4l2_format :=
  if o.video_mode = .RAW16 then
    if o.boson_sensor = .Boson640 then
      { pixelformat := V4L2_PIX_FMT_Y16, width := 640, height := 512 }
    else
      { pixelformat := V4L2_PIX_FMT_Y16, width := 320, height := 256 }
  else
    { pixelformat := V4L2_PIX_FMT_YVU420, width := 640, height := 512 }

/-- Lines 239 to 362: from the creation of the output folder to `VIDIOC_STREAMON`.
The result is the session, or the step whose failure made `main` call `exit(1)`
together with the calls made up to there. -/
def setup (o : Options) (env : Env) : Except (Step × List Call) Session :=
  let sys : List Call :=
    if o.record_enable = 1 then [.mkdir o.folder_name, .chdir o.folder_name] else []
  let sys := sys ++ [.openDevice o.video]
  if env.openResult o.video < 0 then .error (.openDevice, sys) else
  let sys := sys ++ [.ioctl .QUERYCAP]
  match env.querycap with
  | none => .error (.querycap, sys)
  | some capabilities =>
    if capabilities &&& V4L2_CAP_VIDEO_CAPTURE = 0 then .error (.capability, sys) else
    let width := (requestedFormat o).width
    let height := (requestedFormat o).height
    let request : v4l2_format :=
      { pixelformat := (requestedFormat o).pixelformat, width := width, height := height }
    let sys := sys ++ [.ioctl .S_FMT]
    match env.s_fmt request with
    | none => .error (.s_fmt, sys)
    | some format =>
      let sys := sys ++ [.ioctl .REQBUFS]
      if !env.reqbufs then .error (.reqbufs, sys) else
      let sys := sys ++ [.ioctl .QUERYBUF]
      if !env.querybuf then .error (.querybuf, sys) else
      let sys := sys ++ [.mmap]
      if !env.mmap then .error (.mmap, sys) else
      let sys := sys ++ [.ioctl .STREAMON]
      if !env.streamon then .error (.streamon, sys) else
      .ok { width := width, height := height, format := format, sys := sys }

/-- Line 367: `Mat thermal16(height, width, CV_16U, buffer_start)`, a view of the
mapped buffer with two bytes per pixel. -/
def thermal16 (s : Session) (buffer : Nat → uchar) : Mat :=
  { rows := s.height, cols := s.width, data := fun i c => buffer (i * (s.width * 2) + c) }

/-- Line 370: `Mat thermal16_linear(height, width, CV_8U, 1)`. -/
def thermal16_linear (s : Session) : Mat := Mat.filled s.height s.width 1

/-- Lines 388 to 392: `Mat thermal_luma(luma_height, luma_width, CV_8UC1, buffer_start)`. -/
def thermal_luma (s : Session) (buffer : Nat → uchar) : Mat :=
  let luma_height := s.height + s.height / 2
  let luma_width := s.width
  { rows := luma_height, cols := luma_width, data := fun i c => buffer (i * luma_width + c) }

/-- Line 393: `Mat thermal_rgb(height, width, CV_8UC3, 1)`. -/
def thermal_rgb (s : Session) : Mat := Mat.filled s.height s.width 1

/-! ## The capture loop (source lines 399 to 469) -/

/-- The two `break` statements of the capture loop. -/
inductive LoopExit where
  | quitKey
  | frameLimit
  deriving DecidableEq, Repr

/-- The variables that change from one iteration to the next. -/
structure LoopState where
  /-- The local `frame`, the frame counter. -/
  frame : Nat
  /-- The contents of the matrix `thermal16_linear`. -/
  linear : Mat
  /-- Operating-system calls made so far. -/
  sys : List Call
  /-- Paths of the image files written so far, in order. -/
  files : List String
  /-- Number of loop bodies entered so far. -/
  iterations : Nat

/-- How an iteration, or the loop, ends. -/
inductive LoopEnd where
  /-- The body ran to its end and the loop goes round again (for the loop:
  it was still running when the fuel ran out). -/
  | running
  /-- One of the two `break` statements was reached. -/
  | left (why : LoopExit)
  /-- A failed call was answered with `exit(1)`. -/
  | exit1 (step : Step)
  /-- The process was killed. -/
  | fault (f : Fault)
  deriving DecidableEq, Repr

/-- The conversion `%lu` of `sprintf`. -/
def fmt_lu (n : Nat) : String := Nat.repr n

/-- A call `imwrite(filepath, ...)` in iteration `k`; the return value is
discarded by the program, an exception is not caught. -/
def imwrite (env : Env) (k : Nat) (filepath : String) (st : LoopState) :
    Except Fault LoopState :=
  match env.imwrite k filepath with
  | .written => .ok { st with files := st.files ++ [filepath] }
  | .failed => .ok st
  | .threw => .error .imwriteException

/-- Lines 427 to 439: the recording branch of RAW16 mode. -/
def recordRAW16 (o : Options) (env : Env) (k : Nat) (st : LoopState) :
    Except Fault LoopState :=
  if o.record_enable = 1 then
    let written :=
      if o.video_frames = 1 ∧ st.frame = 0 then
        imwrite env k (o.filename ++ ".tiff") st
      else
        match imwrite env k (o.filename ++ "_" ++ fmt_lu st.frame ++ ".tiff") st with
        | .ok st1 => imwrite env k (o.filename ++ "_agc_" ++ fmt_lu st.frame ++ ".tiff") st1
        | .error e => .error e
    match written with
    | .ok st2 => .ok { st2 with frame := st2.frame + 1 }
    | .error e => .error e
  else .ok st

/-- Lines 451 to 455: the recording branch of YUV mode. -/
def recordYUV (o : Options) (env : Env) (k : Nat) (st : LoopState) :
    Except Fault LoopState :=
  if o.record_enable = 1 then
    match imwrite env k (o.thermal_sensor_name ++ "_yuv_" ++ fmt_lu st.frame ++ ".tiff") st with
    | .ok st2 => .ok { st2 with frame := st2.frame + 1 }
    | .error e => .error e
  else .ok st

/-- Lines 414 to 456: processing and recording of the frame in `buffer`
(`resize`, `cvtColor` and the window labels leave no trace in the model). -/
def processFrame (o : Options) (s : Session) (env : Env) (k : Nat) (buffer : Nat → uchar)
    (st : LoopState) : Except Fault LoopState :=
  if o.video_mode = .RAW16 then
    match AGC_Basic_Linear (thermal16 s buffer) st.linear s.height s.width with
    | .ok out => recordRAW16 o env k { st with linear := out }
    | .error e => .error e
  else recordYUV o env k st

/-- The key code of the letter q. -/
def key_q : Int := 113

/-- Lines 458 to 468: the stop conditions, evaluated after the frame was handled. -/
def stopCondition (o : Options) (env : Env) (k : Nat) (st : LoopState) : LoopEnd :=
  if env.waitKey k = key_q then .left .quitKey
  else if o.video_frames > 0 ∧ (st.frame : Int) + 1 > o.video_frames then .left .frameLimit
  else .running

/-- Line 401: the state once `VIDIOC_QBUF` was issued in a new iteration. -/
def afterQBUF (st : LoopState) : LoopState :=
  { st with iterations := st.iterations + 1, sys := st.sys ++ [.ioctl .QBUF] }

/-- Line 407: the state once `VIDIOC_DQBUF` was issued. -/
def afterDQBUF (st : LoopState) : LoopState :=
  { st with sys := st.sys ++ [.ioctl .DQBUF] }

/-- Lines 400 to 468: one pass through the body of `for (;;)`. -/
def iteration (o : Options) (s : Session) (env : Env) (st : LoopState) :
    LoopEnd × LoopState :=
  let k := st.iterations
  if !env.qbuf k then (.exit1 .qbuf, afterQBUF st) else
  match env.dqbuf k with
  | none => (.exit1 .dqbuf, afterDQBUF (afterQBUF st))
  | some buffer =>
    match processFrame o s env k buffer (afterDQBUF (afterQBUF st)) with
    | .error e => (.fault e, afterDQBUF (afterQBUF st))
    | .ok st1 => (stopCondition o env k st1, st1)

/-- The loop `for (;;)`, unrolled at most `fuel` times. -/
def captureLoop (o : Options) (s : Session) (env : Env) :
    Nat → LoopState → LoopEnd × LoopState
  | 0, st => (.running, st)
  | fuel + 1, st =>
    match iteration o s env st with
    | (.running, st1) => captureLoop o s env fuel st1
    | r => r

/-- The loop variables when the loop is entered (lines 147 and 370). -/
def initialState (s : Session) : LoopState :=
  { frame := 0, linear := thermal16_linear s, sys := s.sys, files := [], iterations := 0 }

/-! ## `main` (source lines 141 to 480) -/

/-- How the process ends. -/
inductive Exit where
  /-- The statement `return EXIT_SUCCESS`. -/
  | success
  /-- A call `exit(1)` after the named step failed. -/
  | failure (step : Step)
  /-- The process was killed. -/
  | fault (f : Fault)
  /-- The capture loop was still running when the fuel ran out. -/
  | running
  deriving DecidableEq, Repr

/-- What a run of the program leaves behind. -/
structure Run where
  exit : Exit
  /-- The `break` through which the capture loop was left, if it was. -/
  loopExit : Option LoopExit
  sys : List Call
  files : List String
  frame : Nat
  iterations : Nat
  deriving DecidableEq, Repr

/-- Lines 470 to 479: what follows the loop. -/
def teardown (env : Env) (why : LoopExit) (st : LoopState) : Run :=
  let sys := st.sys ++ [.ioctl .STREAMOFF]
  if !env.streamoff then
    { exit := .failure .streamoff, loopExit := some why, sys := sys, files := st.files,
      frame := st.frame, iterations := st.iterations }
  else
    { exit := .success, loopExit := some why, sys := sys ++ [.close], files := st.files,
      frame := st.frame, iterations := st.iterations }

/-- What `main` does once the loop has ended: the teardown after a `break`,
nothing more after `exit(1)` or a fault. -/
def finish (env : Env) : LoopEnd × LoopState → Run
  | (.left why, st) => teardown env why st
  | (.exit1 step, st) =>
    { exit := .failure step, loopExit := none, sys := st.sys, files := st.files,
      frame := st.frame, iterations := st.iterations }
  | (.fault f, st) =>
    { exit := .fault f, loopExit := none, sys := st.sys, files := st.files,
      frame := st.frame, iterations := st.iterations }
  | (.running, st) =>
    { exit := .running, loopExit := none, sys := st.sys, files := st.files,
      frame := st.frame, iterations := st.iterations }

/-- The run of `main` once the options are known. -/
def session (o : Options) (env : Env) (fuel : Nat) : Run :=
  match setup o env with
  | .error (step, sys) =>
    { exit := .failure step, loopExit := none, sys := sys, files := [], frame := 0,
      iterations := 0 }
  | .ok s => finish env (captureLoop o s env fuel (initialState s))

/-- The function `main` on the argument vector `argv`. -/
def main (g : Indeterminate) (argv : List String) (env : Env) (fuel : Nat) : Run :=
  session (parseArgs g argv) env fuel

/-! ## Notions used to state the claims -/

/-- The frame holds two different samples. -/
def NotConstant (m : Mat) (height width : Nat) : Prop :=
  ∃ i j i2 j2, i < height ∧ j < width ∧ i2 < height ∧ j2 < width ∧
    sample16 m i j ≠ sample16 m i2 j2

/-- During the first `n` iterations nothing disturbs the capture: every
`VIDIOC_QBUF` and `VIDIOC_DQBUF` succeeds, the frame delivered is not constant,
every image write succeeds and the key polled is not the quit key. -/
def Undisturbed (s : Session) (env : Env) (n : Nat) : Prop :=
  ∀ k, k < n →
    env.qbuf k = true ∧
    (∃ buffer, env.dqbuf k = some buffer ∧
      NotConstant (thermal16 s buffer) s.height s.width) ∧
    (∀ p, env.imwrite k p = .written) ∧
    env.waitKey k ≠ key_q

/-- The two files of frame number `frame`: `<base>_<frame>.tiff` and
`<base>_agc_<frame>.tiff`. -/
def rawRecordNames (base : String) (frame : Nat) : List String :=
  [base ++ "_" ++ fmt_lu frame ++ ".tiff", base ++ "_agc_" ++ fmt_lu frame ++ ".tiff"]

/-- The files expected from a RAW16 recording with frame limit `limit`. -/
def expectedRawFiles (base : String) (limit : Nat) : List String :=
  if limit = 1 then [base ++ ".tiff"] else (List.range limit).flatMap (rawRecordNames base)

/-- The number that a string of decimal digits denotes. -/
def decodeDec (cs : List Char) : Nat := cs.foldl (fun a c => 10 * a + (c.toNat - 48)) 0

/-- A list of calls without any of the three teardown calls. -/
def Quiet (l : List Call) : Prop :=
  Call.ioctl .STREAMOFF ∉ l ∧ Call.close ∉ l ∧ Call.munmap ∉ l

/-! ## Sample inputs -/

/-- A device on which every call succeeds, that returns the requested format,
delivers frames whose first sample is 1 and whose other samples are 0, and
whose window never reports a key. -/
def plainEnv : Env :=
  { openResult := fun _ => 3
    querycap := some 0x04200001
    s_fmt := fun f => some f
    reqbufs := true
    querybuf := true
    mmap := true
    streamon := true
    qbuf := fun _ => true
    dqbuf := fun _ => some (fun k => if k = 0 then 1 else 0)
    imwrite := fun _ _ => .written
    waitKey := fun _ => -1
    streamoff := true }

/-- Stack contents used in the examples. -/
def plainStack : Indeterminate :=
  { folder_name := "", filename := "", thermal_sensor_name := "", boson_sensor := .Boson320 }

/-- Sample frame of one row and three pixels holding the samples 10, 20, 30. -/
def rampFrame : Mat :=
  { rows := 1, cols := 3, data := fun _ c => if c = 0 then 10 else if c = 2 then 20
      else if c = 4 then 30 else 0 }

/-- The session of a Boson320 in RAW16 mode on `plainEnv`. -/
def plainSession : Session :=
  { width := 320
    height := 256
    format := { pixelformat := V4L2_PIX_FMT_Y16, width := 320, height := 256 }
    sys := [.openDevice "/dev/video0", .ioctl .QUERYCAP, .ioctl .S_FMT,
            .ioctl .REQBUFS, .ioctl .QUERYBUF, .mmap, .ioctl .STREAMON] }

/-- A device that answers every format request with 640 x 512. -/
def adjustingEnv : Env :=
  { plainEnv with s_fmt := fun f => some { f with width := 640, height := 512 } }

/-- The session that `main` enters the loop with on `adjustingEnv`. -/
def adjustedSession : Session :=
  { width := 320
    height := 256
    format := { pixelformat := V4L2_PIX_FMT_Y16, width := 640, height := 512 }
    sys := [.openDevice "/dev/video0", .ioctl .QUERYCAP, .ioctl .S_FMT,
            .ioctl .REQBUFS, .ioctl .QUERYBUF, .mmap, .ioctl .STREAMON] }

/-- A file system on which every image write fails without an exception. -/
def failingWriteEnv : Env :=
  { plainEnv with imwrite := fun _ _ => .failed }

/-- A device on which `VIDIOC_QBUF` fails. -/
def qbufFailEnv : Env :=
  { plainEnv with qbuf := fun _ => false }

/-- A device whose frames are all zero, as the buffer is after `memset`. -/
def zeroFrameEnv : Env :=
  { plainEnv with dqbuf := fun _ => some (fun _ => 0) }

/-- A window in which the letter q is pressed at once, on a device whose
`VIDIOC_STREAMOFF` fails. -/
def streamoffFailEnv : Env :=
  { plainEnv with waitKey := fun _ => key_q, streamoff := false }

/-- A window in which the letter q is pressed at once. -/
def quitEnv : Env :=
  { plainEnv with waitKey := fun _ => key_q }

/-! # Theorems -/

/-! ## Lemmas -/

theorem readValue3_eq (m : Mat) (i j : Nat) : readValue3 m i j = sample16 m i j := by
  have h1 : ∀ x : Nat, x &&& 0xFF = x % 256 := fun x =>
    Nat.and_pow_two_sub_one_eq_mod x 8
  have ha := (m.data i (j * 2 + 1)).isLt
  have hb := (m.data i (j * 2)).isLt
  simp only [readValue3, sample16, add32, shl32, h1, Nat.shiftLeft_eq]
  rw [show 2 * j = j * 2 from Nat.mul_comm 2 j]
  omega

theorem sample16_lt (m : Mat) (i j : Nat) : sample16 m i j < 65536 := by
  have ha := (m.data i (2 * j + 1)).isLt
  have hb := (m.data i (2 * j)).isLt
  simp only [sample16]
  omega

theorem forUpTo_succ {σ : Type} (n : Nat) (body : Nat → σ → σ) (s : σ) :
    forUpTo (n + 1) body s = body n (forUpTo n body s) := rfl

/-- What one row of the first loop establishes about `(min1, max1)`. -/
theorem rowScan_spec (f : Nat → Nat) (w : Nat) (s : Nat × Nat) :
    (forUpTo w (fun j mm => minMaxStep (f j) mm) s).1 ≤ s.1 ∧
    (∀ j, j < w → (forUpTo w (fun j mm => minMaxStep (f j) mm) s).1 ≤ f j) ∧
    ((forUpTo w (fun j mm => minMaxStep (f j) mm) s).1 = s.1 ∨
      ∃ j, j < w ∧ f j = (forUpTo w (fun j mm => minMaxStep (f j) mm) s).1) ∧
    s.2 ≤ (forUpTo w (fun j mm => minMaxStep (f j) mm) s).2 ∧
    (∀ j, j < w → f j ≤ (forUpTo w (fun j mm => minMaxStep (f j) mm) s).2) ∧
    ((forUpTo w (fun j mm => minMaxStep (f j) mm) s).2 = s.2 ∨
      ∃ j, j < w ∧ f j = (forUpTo w (fun j mm => minMaxStep (f j) mm) s).2) := by
  induction w with
  | zero => simp [forUpTo]
  | succ n ih =>
    obtain ⟨a1, a2, a3, b1, b2, b3⟩ := ih
    rw [forUpTo_succ]
    generalize forUpTo n (fun j mm => minMaxStep (f j) mm) s = r at *
    simp only [minMaxStep]
    refine ⟨?_, ?_, ?_, ?_, ?_, ?_⟩
    · split <;> omega
    · intro j hj
      rcases Nat.lt_succ_iff_lt_or_eq.mp hj with h | h
      · have := a2 j h
        split <;> omega
      · subst h
        split <;> omega
    · by_cases hc : f n ≤ r.1
      · rw [if_pos hc]
        exact Or.inr ⟨n, Nat.lt_succ_self n, rfl⟩
      · rw [if_neg hc]
        rcases a3 with h | ⟨j, hj, h⟩
        · exact Or.inl h
        · exact Or.inr ⟨j, Nat.lt_succ_of_lt hj, h⟩
    · split <;> omega
    · intro j hj
      rcases Nat.lt_succ_iff_lt_or_eq.mp hj with h | h
      · have := b2 j h
        split <;> omega
      · subst h
        split <;> omega
    · by_cases hc : f n ≥ r.2
      · rw [if_pos hc]
        exact Or.inr ⟨n, Nat.lt_succ_self n, rfl⟩
      · rw [if_neg hc]
        rcases b3 with h | ⟨j, hj, h⟩
        · exact Or.inl h
        · exact Or.inr ⟨j, Nat.lt_succ_of_lt hj, h⟩

/-- What the whole first pair of loops establishes about `(min1, max1)`. -/
theorem frameScan_spec (f : Nat → Nat → Nat) (h w : Nat) (s : Nat × Nat) :
    (forUpTo h (fun i mm => forUpTo w (fun j mm => minMaxStep (f i j) mm) mm) s).1 ≤ s.1 ∧
    (∀ i j, i < h → j < w →
      (forUpTo h (fun i mm => forUpTo w (fun j mm => minMaxStep (f i j) mm) mm) s).1 ≤ f i j) ∧
    ((forUpTo h (fun i mm => forUpTo w (fun j mm => minMaxStep (f i j) mm) mm) s).1 = s.1 ∨
      ∃ i j, i < h ∧ j < w ∧
        f i j = (forUpTo h (fun i mm => forUpTo w (fun j mm => minMaxStep (f i j) mm) mm) s).1) ∧
    s.2 ≤ (forUpTo h (fun i mm => forUpTo w (fun j mm => minMaxStep (f i j) mm) mm) s).2 ∧
    (∀ i j, i < h → j < w →
      f i j ≤ (forUpTo h (fun i mm => forUpTo w (fun j mm => minMaxStep (f i j) mm) mm) s).2) ∧
    ((forUpTo h (fun i mm => forUpTo w (fun j mm => minMaxStep (f i j) mm) mm) s).2 = s.2 ∨
      ∃ i j, i < h ∧ j < w ∧
        f i j = (forUpTo h (fun i mm => forUpTo w (fun j mm => minMaxStep (f i j) mm) mm) s).2) := by
  induction h with
  | zero => simp [forUpTo]
  | succ n ih =>
    obtain ⟨a1, a2, a3, b1, b2, b3⟩ := ih
    rw [forUpTo_succ]
    generalize forUpTo n (fun i mm => forUpTo w (fun j mm => minMaxStep (f i j) mm) mm) s = r at *
    obtain ⟨c1, c2, c3, d1, d2, d3⟩ := rowScan_spec (f n) w r
    generalize forUpTo w (fun j mm => minMaxStep (f n j) mm) r = q at *
    refine ⟨by omega, ?_, ?_, by omega, ?_, ?_⟩
    · intro i j hi hj
      rcases Nat.lt_succ_iff_lt_or_eq.mp hi with h | h
      · have := a2 i j h hj
        omega
      · subst h
        exact c2 j hj
    · rcases c3 with h | ⟨j, hj, h⟩
      · rcases a3 with h2 | ⟨i, j, hi, hj, h2⟩
        · exact Or.inl (h.trans h2)
        · exact Or.inr ⟨i, j, Nat.lt_succ_of_lt hi, hj, h2.trans h.symm⟩
      · exact Or.inr ⟨n, j, Nat.lt_succ_self n, hj, h⟩
    · intro i j hi hj
      rcases Nat.lt_succ_iff_lt_or_eq.mp hi with h | h
      · have := b2 i j h hj
        omega
      · subst h
        exact d2 j hj
    · rcases d3 with h | ⟨j, hj, h⟩
      · rcases b3 with h2 | ⟨i, j, hi, hj, h2⟩
        · exact Or.inl (h.trans h2)
        · exact Or.inr ⟨i, j, Nat.lt_succ_of_lt hi, hj, h2.trans h.symm⟩
      · exact Or.inr ⟨n, j, Nat.lt_succ_self n, hj, h⟩

/-- On a frame with at least one pixel the first pair of loops leaves the true
minimum in `min1` and the true maximum in `max1`. -/
theorem agcMinMax_spec (m : Mat) (h w : Nat) (hh : 1 ≤ h) (hw : 1 ≤ w) :
    IsFrameMin m h w (agcMinMax m h w).1 ∧ IsFrameMax m h w (agcMinMax m h w).2 := by
  obtain ⟨a1, a2, a3, b1, b2, b3⟩ :=
    frameScan_spec (fun i j => readValue3 m i j) h w (0xFFFF, 0)
  simp only [readValue3_eq] at a1 a2 a3 b1 b2 b3
  have e : agcMinMax m h w
      = forUpTo h (fun i mm => forUpTo w (fun j mm => minMaxStep (sample16 m i j) mm) mm)
          (0xFFFF, 0) := by
    simp only [agcMinMax, readValue3_eq]
  rw [e]
  generalize forUpTo h (fun i mm => forUpTo w (fun j mm => minMaxStep (sample16 m i j) mm) mm)
    (0xFFFF, 0) = r at *
  have h00 := sample16_lt m 0 0
  have l0 := a2 0 0 (by omega) (by omega)
  have u0 := b2 0 0 (by omega) (by omega)
  refine ⟨⟨?_, a2⟩, ⟨?_, b2⟩⟩
  · rcases a3 with h1 | h1
    · have h2 : r.1 = 65535 := h1
      exact ⟨0, 0, by omega, by omega, by omega⟩
    · exact h1
  · rcases b3 with h1 | h1
    · have h2 : r.2 = 0 := h1
      exact ⟨0, 0, by omega, by omega, by omega⟩
    · exact h1

theorem frameMin_pos {m : Mat} {h w a : Nat} (ha : IsFrameMin m h w a) : 1 ≤ h ∧ 1 ≤ w := by
  obtain ⟨⟨i, j, hi, hj, _⟩, _⟩ := ha
  omega

theorem frameMin_unique {m : Mat} {h w a b : Nat}
    (ha : IsFrameMin m h w a) (hb : IsFrameMin m h w b) : a = b := by
  obtain ⟨⟨i, j, hi, hj, e⟩, la⟩ := ha
  obtain ⟨⟨i2, j2, hi2, hj2, e2⟩, lb⟩ := hb
  have := la i2 j2 hi2 hj2
  have := lb i j hi hj
  omega

theorem frameMax_unique {m : Mat} {h w a b : Nat}
    (ha : IsFrameMax m h w a) (hb : IsFrameMax m h w b) : a = b := by
  obtain ⟨⟨i, j, hi, hj, e⟩, la⟩ := ha
  obtain ⟨⟨i2, j2, hi2, hj2, e2⟩, lb⟩ := hb
  have := la i2 j2 hi2 hj2
  have := lb i j hi hj
  omega

theorem forUpToM_succ {σ : Type} (n : Nat) (body : Nat → σ → Except Fault σ) (s : σ) :
    forUpToM (n + 1) body s
      = (match forUpToM n body s with
         | .ok s1 => body n s1
         | .error e => .error e) := rfl

/-- One row of the second loop when the divisor is not zero. -/
theorem rowStore_ok (m : Mat) (mn mx i w : Nat) (hd : sub32 mx mn ≠ 0) (out : Mat) :
    ∃ o, forUpToM w (fun j out => agcStore m mn mx i j out) out = .ok o ∧
      o.rows = out.rows ∧ o.cols = out.cols ∧
      ∀ r c, o.data r c
        = if r = i ∧ c < w then agcByte mn mx (readValue3 m i c) else out.data r c := by
  induction w with
  | zero => exact ⟨out, rfl, rfl, rfl, fun r c => by simp⟩
  | succ n ih =>
    obtain ⟨o, e, hr, hc, hdata⟩ := ih
    refine ⟨o.set i n (agcByte mn mx (readValue3 m i n)), ?_, hr, hc, ?_⟩
    · rw [forUpToM_succ, e]
      simp only [agcStore, if_neg hd, agcByte]
    · intro r c
      simp only [Mat.set, hdata]
      by_cases h1 : r = i
      · by_cases h2 : c = n
        · subst h1; subst h2; simp
        · by_cases h3 : c < n
          · have : c < n + 1 := by omega
            simp [h1, h2, h3, this]
          · have : ¬ c < n + 1 := by omega
            simp [h1, h2, h3, this]
      · simp [h1]

/-- The whole second pair of loops when the divisor is not zero. -/
theorem frameStore_ok (m : Mat) (mn mx h w : Nat) (hd : sub32 mx mn ≠ 0) (out : Mat) :
    ∃ o, forUpToM h
          (fun i out => forUpToM w (fun j out => agcStore m mn mx i j out) out) out = .ok o ∧
      o.rows = out.rows ∧ o.cols = out.cols ∧
      ∀ r c, o.data r c
        = if r < h ∧ c < w then agcByte mn mx (readValue3 m r c) else out.data r c := by
  induction h with
  | zero => exact ⟨out, rfl, rfl, rfl, fun r c => by simp⟩
  | succ n ih =>
    obtain ⟨o, e, hr, hc, hdata⟩ := ih
    obtain ⟨o2, e2, hr2, hc2, hdata2⟩ := rowStore_ok m mn mx n w hd o
    refine ⟨o2, ?_, hr2.trans hr, hc2.trans hc, ?_⟩
    · rw [forUpToM_succ, e]
      exact e2
    · intro r c
      rw [hdata2, hdata]
      by_cases h1 : r = n
      · subst h1
        by_cases h2 : c < w <;> simp [h2]
      · by_cases h3 : r < n
        · have : r < n + 1 := by omega
          simp [h1, h3, this]
        · have : ¬ r < n + 1 := by omega
          simp [h1, h3, this]

/-- The second pair of loops on a frame without columns stores nothing. -/
theorem frameStore_ok_zero_width (m : Mat) (mn mx h : Nat) (out : Mat) :
    ∃ o, forUpToM h
          (fun i out => forUpToM 0 (fun j out => agcStore m mn mx i j out) out) out = .ok o ∧
      o = out := by
  induction h with
  | zero => exact ⟨out, rfl, rfl⟩
  | succ n ih =>
    obtain ⟨o, e, ho⟩ := ih
    refine ⟨out, ?_, rfl⟩
    rw [forUpToM_succ, e, ho]
    rfl

/-- One row of the second loop when the divisor is zero: the first pixel faults. -/
theorem rowStore_fault (m : Mat) (mn mx i w : Nat) (hd : sub32 mx mn = 0) (hw : 1 ≤ w)
    (out : Mat) :
    forUpToM w (fun j out => agcStore m mn mx i j out) out = .error .divByZero := by
  induction w with
  | zero => omega
  | succ n ih =>
    rw [forUpToM_succ]
    cases n with
    | zero => simp only [forUpToM, agcStore, if_pos hd]
    | succ k => rw [ih (by omega)]

/-- The second pair of loops when the divisor is zero. -/
theorem frameStore_fault (m : Mat) (mn mx h w : Nat) (hd : sub32 mx mn = 0) (hh : 1 ≤ h)
    (hw : 1 ≤ w) (out : Mat) :
    forUpToM h (fun i out => forUpToM w (fun j out => agcStore m mn mx i j out) out) out
      = .error .divByZero := by
  induction h with
  | zero => omega
  | succ n ih =>
    rw [forUpToM_succ]
    cases n with
    | zero =>
      simp only [forUpToM]
      exact rowStore_fault m mn mx 0 w hd hw out
    | succ k => rw [ih (by omega)]

/-- The arithmetic of lines 103 and 106 on 16-bit operands: neither the 32-bit
wrap-around nor the mask to eight bits changes the quotient. -/
theorem agcByte_val (mn mx v : Nat) (h1 : mn ≤ v) (h2 : v ≤ mx) (h3 : mn < mx)
    (h4 : mx < 65536) :
    (agcByte mn mx v).val = 255 * (v - mn) / (mx - mn) := by
  have e1 : sub32 v mn = v - mn := by simp only [sub32]; omega
  have e2 : sub32 mx mn = mx - mn := by simp only [sub32]; omega
  have e3 : mul32 255 (v - mn) = 255 * (v - mn) := by simp only [mul32]; omega
  have hq : 255 * (v - mn) / (mx - mn) ≤ 255 := by
    apply Nat.div_le_of_le_mul
    rw [Nat.mul_comm (mx - mn) 255]
    exact Nat.mul_le_mul_left 255 (by omega)
  have h5 : ∀ x : Nat, x &&& 0xFF = x % 256 := fun x =>
    Nat.and_pow_two_sub_one_eq_mod x 8
  simp only [agcByte, toUchar, e1, e2, e3, h5]
  generalize 255 * (v - mn) / (mx - mn) = q at hq ⊢
  omega

theorem sub32_ne_zero {mn mx : Nat} (h3 : mn < mx) (h4 : mx < 65536) : sub32 mx mn ≠ 0 := by
  simp only [sub32]; omega

theorem sub32_self (a : Nat) : sub32 a a = 0 := by
  simp only [sub32]; omega

/-- The complete behaviour of `AGC_Basic_Linear` on a frame whose minimum `mn`
and maximum `mx` differ. -/
theorem AGC_ok (m out : Mat) (h w mn mx : Nat)
    (hmn : IsFrameMin m h w mn) (hmx : IsFrameMax m h w mx) (hne : mn ≠ mx) :
    ∃ o, AGC_Basic_Linear m out h w = .ok o ∧ o.rows = out.rows ∧ o.cols = out.cols ∧
      (∀ r c, r < h → c < w →
        (o.data r c).val = 255 * (sample16 m r c - mn) / (mx - mn)) ∧
      (∀ r c, ¬ (r < h ∧ c < w) → o.data r c = out.data r c) := by
  obtain ⟨hh, hw⟩ := frameMin_pos hmn
  obtain ⟨s1, s2⟩ := agcMinMax_spec m h w hh hw
  have e1 := frameMin_unique s1 hmn
  have e2 := frameMax_unique s2 hmx
  obtain ⟨⟨i, j, hi, hj, e⟩, lo⟩ := hmn
  obtain ⟨⟨i2, j2, hi2, hj2, e3⟩, hi3⟩ := hmx
  have hlt : mn < mx := by
    have := lo i2 j2 hi2 hj2
    omega
  have hb : mx < 65536 := by
    have := sample16_lt m i2 j2
    omega
  obtain ⟨o, eo, hr, hc, hdata⟩ :=
    frameStore_ok m mn mx h w (sub32_ne_zero hlt hb) out
  refine ⟨o, ?_, hr, hc, ?_, ?_⟩
  · simp only [AGC_Basic_Linear, e1, e2]
    exact eo
  · intro r c hr2 hc2
    rw [hdata, if_pos ⟨hr2, hc2⟩, readValue3_eq]
    exact agcByte_val mn mx _ (lo r c hr2 hc2) (hi3 r c hr2 hc2) hlt hb
  · intro r c hn
    rw [hdata, if_neg hn]

/-- On a frame with at least one pixel whose minimum equals its maximum the
division of line 103 is by zero. -/
theorem AGC_fault (m out : Mat) (h w mn : Nat)
    (hmn : IsFrameMin m h w mn) (hmx : IsFrameMax m h w mn) :
    AGC_Basic_Linear m out h w = .error .divByZero := by
  obtain ⟨hh, hw⟩ := frameMin_pos hmn
  obtain ⟨s1, s2⟩ := agcMinMax_spec m h w hh hw
  have e1 := frameMin_unique s1 hmn
  have e2 := frameMax_unique s2 hmx
  simp only [AGC_Basic_Linear, e1, e2]
  exact frameStore_fault m mn mn h w (sub32_self mn) hh hw out

theorem rampFrame_min : IsFrameMin rampFrame 1 3 10 := by
  refine ⟨⟨0, 0, by decide, by decide, by decide⟩, ?_⟩
  intro i j hi hj
  interval_cases i
  interval_cases j <;> decide

theorem rampFrame_max : IsFrameMax rampFrame 1 3 30 := by
  refine ⟨⟨0, 2, by decide, by decide, by decide⟩, ?_⟩
  intro i j hi hj
  interval_cases i
  interval_cases j <;> decide

/-- What a successful set-up leaves in the session. -/
theorem setup_ok {o : Options} {env : Env} {s : Session} (h : setup o env = .ok s) :
    s.width = (requestedFormat o).width ∧ s.height = (requestedFormat o).height ∧
    env.s_fmt (requestedFormat o) = some s.format ∧
    s.sys = (if o.record_enable = 1 then [.mkdir o.folder_name, .chdir o.folder_name] else [])
      ++ [.openDevice o.video, .ioctl .QUERYCAP, .ioctl .S_FMT, .ioctl .REQBUFS,
          .ioctl .QUERYBUF, .mmap, .ioctl .STREAMON] := by
  unfold setup at h
  simp only at h
  repeat' split at h
  all_goals first
    | contradiction
    | (injection h with h; subst h; simp_all)

theorem imwrite_ok {env : Env} {k : Nat} {p : String} {st st1 : LoopState}
    (h : imwrite env k p st = .ok st1) :
    st1.frame = st.frame ∧ st1.sys = st.sys ∧ st1.iterations = st.iterations := by
  unfold imwrite at h
  split at h
  · injection h with h; subst h; exact ⟨rfl, rfl, rfl⟩
  · injection h with h; subst h; exact ⟨rfl, rfl, rfl⟩
  · contradiction

theorem imwrite_returns {env : Env} {k : Nat} (p : String) (st : LoopState)
    (h : env.imwrite k p ≠ .threw) :
    ∃ st1, imwrite env k p st = .ok st1 ∧ st1.frame = st.frame := by
  unfold imwrite
  split
  · exact ⟨_, rfl, rfl⟩
  · exact ⟨_, rfl, rfl⟩
  · contradiction

theorem imwrite_error {env : Env} {k : Nat} {p : String} {st : LoopState} {e : Fault}
    (h : imwrite env k p st = .error e) : e = .imwriteException := by
  unfold imwrite at h
  split at h
  · contradiction
  · contradiction
  · injection h with h; exact h.symm

theorem recordRAW16_ok {o : Options} {env : Env} {k : Nat} {st st1 : LoopState}
    (h : recordRAW16 o env k st = .ok st1) :
    st1.frame = st.frame + (if o.record_enable = 1 then 1 else 0) ∧ st1.sys = st.sys ∧
      st1.iterations = st.iterations := by
  unfold recordRAW16 at h
  by_cases hr : o.record_enable = 1
  · simp only [hr, if_true] at h ⊢
    by_cases hc : o.video_frames = 1 ∧ st.frame = 0
    · simp only [hc, and_self, if_true] at h
      cases e1 : imwrite env k (o.filename ++ ".tiff") st with
      | error e => rw [e1] at h; contradiction
      | ok a =>
        rw [e1] at h
        injection h with h
        subst h
        obtain ⟨f1, f2, f3⟩ := imwrite_ok e1
        exact ⟨by simp [f1], f2, f3⟩
    · simp only [if_neg hc] at h
      cases e1 : imwrite env k (o.filename ++ "_" ++ fmt_lu st.frame ++ ".tiff") st with
      | error e => rw [e1] at h; contradiction
      | ok a =>
        rw [e1] at h
        simp only at h
        cases e2 : imwrite env k (o.filename ++ "_agc_" ++ fmt_lu st.frame ++ ".tiff") a with
        | error e => rw [e2] at h; contradiction
        | ok b =>
          rw [e2] at h
          injection h with h
          subst h
          obtain ⟨f1, f2, f3⟩ := imwrite_ok e1
          obtain ⟨g1, g2, g3⟩ := imwrite_ok e2
          exact ⟨by simp [f1, g1], g2.trans f2, g3.trans f3⟩
  · simp only [if_neg hr] at h ⊢
    injection h with h
    subst h
    exact ⟨rfl, rfl, rfl⟩

theorem recordYUV_ok {o : Options} {env : Env} {k : Nat} {st st1 : LoopState}
    (h : recordYUV o env k st = .ok st1) :
    st1.frame = st.frame + (if o.record_enable = 1 then 1 else 0) ∧ st1.sys = st.sys ∧
      st1.iterations = st.iterations := by
  unfold recordYUV at h
  by_cases hr : o.record_enable = 1
  · simp only [hr, if_true] at h ⊢
    cases e1 : imwrite env k (o.thermal_sensor_name ++ "_yuv_" ++ fmt_lu st.frame ++ ".tiff") st with
    | error e => rw [e1] at h; contradiction
    | ok a =>
      rw [e1] at h
      injection h with h
      subst h
      obtain ⟨f1, f2, f3⟩ := imwrite_ok e1
      exact ⟨by simp [f1], f2, f3⟩
  · simp only [if_neg hr] at h ⊢
    injection h with h
    subst h
    exact ⟨rfl, rfl, rfl⟩

theorem processFrame_ok {o : Options} {s : Session} {env : Env} {k : Nat}
    {buffer : Nat → uchar} {st st1 : LoopState}
    (h : processFrame o s env k buffer st = .ok st1) :
    st1.frame = st.frame + (if o.record_enable = 1 then 1 else 0) ∧ st1.sys = st.sys ∧
      st1.iterations = st.iterations := by
  unfold processFrame at h
  split at h
  · split at h
    · have h2 := recordRAW16_ok h
      exact h2
    · contradiction
  · exact recordYUV_ok h

theorem processFrame_error_of_not_recording {o : Options} {s : Session} {env : Env} {k : Nat}
    {buffer : Nat → uchar} {st : LoopState} {e : Fault} (hr : o.record_enable = 0)
    (h : processFrame o s env k buffer st = .error e) : e = .divByZero := by
  have hr1 : ¬ o.record_enable = 1 := by omega
  unfold processFrame at h
  split at h
  · split at h
    · simp [recordRAW16, hr1] at h
    · rename_i e2 he
      injection h with h
      subst h
      unfold AGC_Basic_Linear at he
      by_cases hd : sub32 (agcMinMax (thermal16 s buffer) s.height s.width).2
          (agcMinMax (thermal16 s buffer) s.height s.width).1 = 0
      · by_cases hh : 1 ≤ s.height
        · by_cases hw : 1 ≤ s.width
          · have := frameStore_fault (thermal16 s buffer) _ _ s.height s.width hd hh hw st.linear
            simp only at he
            rw [this] at he
            injection he with he
            exact he.symm
          · have hw0 : s.width = 0 := by omega
            obtain ⟨o2, e2, _⟩ := frameStore_ok_zero_width (thermal16 s buffer) _ _ s.height
              st.linear
            simp only [hw0] at he
            rw [e2] at he
            contradiction
        · have hh0 : s.height = 0 := by omega
          simp only [hh0, forUpToM] at he
          contradiction
      · obtain ⟨o2, e2, _⟩ := frameStore_ok (thermal16 s buffer) _ _ s.height s.width hd st.linear
        simp only at he
        rw [e2] at he
        contradiction
  · simp [recordYUV, hr1] at h

/-- The four ways through the body of the loop. -/
theorem iteration_cases (o : Options) (s : Session) (env : Env) (st : LoopState) :
    (env.qbuf st.iterations = false ∧
      iteration o s env st = (.exit1 .qbuf, afterQBUF st)) ∨
    (env.qbuf st.iterations = true ∧ env.dqbuf st.iterations = none ∧
      iteration o s env st = (.exit1 .dqbuf, afterDQBUF (afterQBUF st))) ∨
    (∃ buffer e, env.qbuf st.iterations = true ∧ env.dqbuf st.iterations = some buffer ∧
      processFrame o s env st.iterations buffer (afterDQBUF (afterQBUF st)) = .error e ∧
      iteration o s env st = (.fault e, afterDQBUF (afterQBUF st))) ∨
    (∃ buffer st1, env.qbuf st.iterations = true ∧ env.dqbuf st.iterations = some buffer ∧
      processFrame o s env st.iterations buffer (afterDQBUF (afterQBUF st)) = .ok st1 ∧
      iteration o s env st = (stopCondition o env st.iterations st1, st1)) := by
  cases hq : env.qbuf st.iterations with
  | false => exact Or.inl ⟨rfl, by simp [iteration, hq]⟩
  | true =>
    cases hd : env.dqbuf st.iterations with
    | none => exact Or.inr (Or.inl ⟨rfl, rfl, by simp [iteration, hq, hd]⟩)
    | some buffer =>
      cases hp : processFrame o s env st.iterations buffer (afterDQBUF (afterQBUF st)) with
      | error e =>
        exact Or.inr (Or.inr (Or.inl ⟨buffer, e, rfl, rfl, hp, by simp [iteration, hq, hd, hp]⟩))
      | ok st1 =>
        exact Or.inr (Or.inr (Or.inr ⟨buffer, st1, rfl, rfl, hp,
          by simp [iteration, hq, hd, hp]⟩))

theorem processFrame_fault (o : Options) (s : Session) (env : Env) (k : Nat)
    (buffer : Nat → uchar) (st : LoopState) (e : Fault) (hmode : o.video_mode = .RAW16)
    (hf : AGC_Basic_Linear (thermal16 s buffer) st.linear s.height s.width = .error e) :
    processFrame o s env k buffer st = .error e := by
  unfold processFrame
  rw [if_pos hmode, hf]

theorem iteration_fault (o : Options) (s : Session) (env : Env) (st : LoopState)
    (buffer : Nat → uchar) (e : Fault) (hq : env.qbuf st.iterations = true)
    (hd : env.dqbuf st.iterations = some buffer)
    (hp : processFrame o s env st.iterations buffer (afterDQBUF (afterQBUF st)) = .error e) :
    iteration o s env st = (.fault e, afterDQBUF (afterQBUF st)) := by
  simp [iteration, hq, hd, hp]

theorem captureLoop_succ (o : Options) (s : Session) (env : Env) (fuel : Nat)
    (st : LoopState) :
    captureLoop o s env (fuel + 1) st
      = (match iteration o s env st with
         | (.running, st1) => captureLoop o s env fuel st1
         | r => r) := rfl

theorem captureLoop_of_running {o : Options} {s : Session} {env : Env} {st st1 : LoopState}
    (fuel : Nat) (h : iteration o s env st = (.running, st1)) :
    captureLoop o s env (fuel + 1) st = captureLoop o s env fuel st1 := by
  rw [captureLoop_succ, h]

theorem captureLoop_of_end {o : Options} {s : Session} {env : Env} {st st1 : LoopState}
    {e : LoopEnd} (fuel : Nat) (h : iteration o s env st = (e, st1)) (he : e ≠ .running) :
    captureLoop o s env (fuel + 1) st = (e, st1) := by
  rw [captureLoop_succ, h]
  cases e with
  | running => exact absurd rfl he
  | left why => rfl
  | exit1 step => rfl
  | fault f => rfl

/-- With recording disabled and a positive frame limit, one pass through the
body keeps the frame counter at 0 and does not reach the frame-limit `break`. -/
theorem iteration_not_recording (o : Options) (s : Session) (env : Env) (st : LoopState)
    (hrec : o.record_enable = 0) (hlim : 0 < o.video_frames) (hf : st.frame = 0) :
    (iteration o s env st).2.frame = 0 ∧
    ((iteration o s env st).1 = .running ∨ (iteration o s env st).1 = .left .quitKey ∨
      (iteration o s env st).1 = .exit1 .qbuf ∨ (iteration o s env st).1 = .exit1 .dqbuf ∨
      (iteration o s env st).1 = .fault .divByZero) := by
  have hr1 : ¬ o.record_enable = 1 := by omega
  rcases iteration_cases o s env st with ⟨_, e⟩ | ⟨_, _, e⟩ | ⟨b, f, _, _, hp, e⟩ |
    ⟨b, st1, _, _, hp, e⟩
  · rw [e]; exact ⟨hf, by simp⟩
  · rw [e]; exact ⟨hf, by simp⟩
  · rw [e]
    have := processFrame_error_of_not_recording hrec hp
    subst this
    exact ⟨hf, by simp⟩
  · rw [e]
    obtain ⟨f1, _, _⟩ := processFrame_ok hp
    have hf1 : st1.frame = 0 := by
      rw [f1, if_neg hr1]
      exact hf
    refine ⟨hf1, ?_⟩
    simp only [stopCondition]
    by_cases hk : env.waitKey st.iterations = key_q
    · simp [hk]
    · have : ¬ (o.video_frames > 0 ∧ (st1.frame : Int) + 1 > o.video_frames) := by
        rw [hf1]
        push_cast
        omega
      simp [hk, this]

/-- With recording disabled and a positive frame limit the loop, however long it
runs, keeps the frame counter at 0 and is not left through the frame limit. -/
theorem captureLoop_not_recording (o : Options) (s : Session) (env : Env)
    (hrec : o.record_enable = 0) (hlim : 0 < o.video_frames) :
    ∀ (fuel : Nat) (st : LoopState), st.frame = 0 →
      (captureLoop o s env fuel st).2.frame = 0 ∧
      ((captureLoop o s env fuel st).1 = .running ∨
        (captureLoop o s env fuel st).1 = .left .quitKey ∨
        (captureLoop o s env fuel st).1 = .exit1 .qbuf ∨
        (captureLoop o s env fuel st).1 = .exit1 .dqbuf ∨
        (captureLoop o s env fuel st).1 = .fault .divByZero) := by
  intro fuel
  induction fuel with
  | zero => intro st hf; exact ⟨hf, Or.inl rfl⟩
  | succ n ih =>
    intro st hf
    obtain ⟨h1, h2⟩ := iteration_not_recording o s env st hrec hlim hf
    cases hi : iteration o s env st with
    | mk e st1 =>
      rw [hi] at h1 h2
      by_cases he : e = .running
      · subst he
        rw [captureLoop_of_running n hi]
        exact ih st1 h1
      · rw [captureLoop_of_end n hi he]
        exact ⟨h1, h2⟩

theorem setup_ok_quiet {o : Options} {env : Env} {s : Session} (h : setup o env = .ok s) :
    Quiet s.sys := by
  obtain ⟨_, _, _, hs⟩ := setup_ok h
  rw [hs]
  unfold Quiet
  split <;> simp

theorem setup_error_quiet {o : Options} {env : Env} {step : Step} {sys : List Call}
    (h : setup o env = .error (step, sys)) :
    Quiet sys ∧ step ≠ .streamoff := by
  unfold setup at h
  simp only at h
  unfold Quiet
  repeat' split at h
  all_goals first
    | contradiction
    | (injection h with h; injection h with h1 h2; subst h1; subst h2; simp)

theorem iteration_quiet (o : Options) (s : Session) (env : Env) (st : LoopState)
    (hq : Quiet st.sys) :
    Quiet (iteration o s env st).2.sys ∧ (iteration o s env st).1 ≠ .exit1 .streamoff := by
  unfold Quiet at hq ⊢
  rcases iteration_cases o s env st with ⟨_, e⟩ | ⟨_, _, e⟩ | ⟨b, f, _, _, hp, e⟩ |
    ⟨b, st1, _, _, hp, e⟩
  · rw [e]; simpa [afterQBUF] using hq
  · rw [e]; simpa [afterQBUF, afterDQBUF] using hq
  · rw [e]; simpa [afterQBUF, afterDQBUF] using hq
  · rw [e]
    obtain ⟨_, f2, _⟩ := processFrame_ok hp
    simp only [f2]
    refine ⟨by simpa [afterQBUF, afterDQBUF] using hq, ?_⟩
    unfold stopCondition
    split
    · simp
    · split <;> simp

theorem captureLoop_quiet (o : Options) (s : Session) (env : Env) :
    ∀ (fuel : Nat) (st : LoopState), Quiet st.sys →
      Quiet (captureLoop o s env fuel st).2.sys ∧
      (captureLoop o s env fuel st).1 ≠ .exit1 .streamoff := by
  intro fuel
  induction fuel with
  | zero => intro st hq; exact ⟨hq, by simp [captureLoop]⟩
  | succ n ih =>
    intro st hq
    obtain ⟨h1, h2⟩ := iteration_quiet o s env st hq
    cases hi : iteration o s env st with
    | mk e st1 =>
      rw [hi] at h1 h2
      by_cases he : e = .running
      · subst he
        rw [captureLoop_of_running n hi]
        exact ih st1 h1
      · rw [captureLoop_of_end n hi he]
        exact ⟨h1, h2⟩

theorem session_of_setup_error {o : Options} {env : Env} {fuel : Nat} {step : Step}
    {sys : List Call} (hs : setup o env = .error (step, sys)) :
    session o env fuel
      = { exit := .failure step, loopExit := none, sys := sys, files := [], frame := 0,
          iterations := 0 } := by
  unfold session
  rw [hs]

theorem session_of_loop {o : Options} {env : Env} {fuel : Nat} {s : Session} {e : LoopEnd}
    {st : LoopState} (hs : setup o env = .ok s)
    (hl : captureLoop o s env fuel (initialState s) = (e, st)) :
    session o env fuel = finish env (e, st) := by
  unfold session
  rw [hs]
  simp only
  rw [hl]

theorem digitChar_decode (k : Nat) (hk : k < 10) :
    (Nat.digitChar k).toNat - 48 = k ∧ (Nat.digitChar k).isDigit = true := by
  interval_cases k <;> decide

theorem toDigitsCore_spec : ∀ (fuel n : Nat), n < fuel →
    ∃ D : List Char, (∀ ds, Nat.toDigitsCore 10 fuel n ds = D ++ ds) ∧ decodeDec D = n ∧
      D ≠ [] ∧ ∀ c ∈ D, c.isDigit = true := by
  intro fuel
  induction fuel with
  | zero => intro n hn; omega
  | succ f ih =>
    intro n hn
    obtain ⟨d1, d2⟩ := digitChar_decode (n % 10) (Nat.mod_lt n (by decide))
    by_cases h0 : n / 10 = 0
    · refine ⟨[Nat.digitChar (n % 10)], ?_, ?_, by simp, ?_⟩
      · intro ds
        simp [Nat.toDigitsCore, h0]
      · simp only [decodeDec, List.foldl, d1]
        omega
      · intro c hc
        simp only [List.mem_singleton] at hc
        rw [hc]
        exact d2
    · obtain ⟨D, e, hv, hne, hd⟩ := ih (n / 10) (by omega)
      refine ⟨D ++ [Nat.digitChar (n % 10)], ?_, ?_, by simp, ?_⟩
      · intro ds
        simp [Nat.toDigitsCore, h0, e]
      · simp only [decodeDec, List.foldl_append, List.foldl] at hv ⊢
        rw [hv, d1]
        omega
      · intro c hc
        rcases List.mem_append.mp hc with h | h
        · exact hd c h
        · simp only [List.mem_singleton] at h
          rw [h]
          exact d2

/-- The text `%lu` produces is a non-empty string of digits that denotes the number. -/
theorem fmt_lu_spec (n : Nat) :
    decodeDec (fmt_lu n).data = n ∧
    ∃ c rest, (fmt_lu n).data = c :: rest ∧ c.isDigit = true := by
  obtain ⟨D, e, hv, hne, hd⟩ := toDigitsCore_spec (n + 1) n (Nat.lt_succ_self n)
  have hD : (fmt_lu n).data = D := by
    simp only [fmt_lu, Nat.repr, Nat.toDigits, List.asString, e, List.append_nil]
  rw [hD]
  refine ⟨hv, ?_⟩
  cases D with
  | nil => exact absurd rfl hne
  | cons c rest => exact ⟨c, rest, rfl, hd c (List.mem_cons_self c rest)⟩

theorem fmt_lu_data_inj {a b : Nat} (h : (fmt_lu a).data = (fmt_lu b).data) : a = b := by
  have h1 := (fmt_lu_spec a).1
  have h2 := (fmt_lu_spec b).1
  rw [h] at h1
  omega

theorem plain_name_inj {base : String} {i j : Nat}
    (h : base ++ "_" ++ fmt_lu i ++ ".tiff" = base ++ "_" ++ fmt_lu j ++ ".tiff") : i = j := by
  have h1 := congrArg String.data h
  simp only [String.data_append, List.append_assoc] at h1
  have h2 := List.append_cancel_left (List.append_cancel_left h1)
  exact fmt_lu_data_inj (List.append_cancel_right h2)

theorem agc_name_inj {base : String} {i j : Nat}
    (h : base ++ "_agc_" ++ fmt_lu i ++ ".tiff" = base ++ "_agc_" ++ fmt_lu j ++ ".tiff") :
    i = j := by
  have h1 := congrArg String.data h
  simp only [String.data_append, List.append_assoc] at h1
  have h2 := List.append_cancel_left (List.append_cancel_left h1)
  exact fmt_lu_data_inj (List.append_cancel_right h2)

theorem plain_name_ne_agc_name (base : String) (i j : Nat) :
    base ++ "_" ++ fmt_lu i ++ ".tiff" ≠ base ++ "_agc_" ++ fmt_lu j ++ ".tiff" := by
  intro h
  have h1 := congrArg String.data h
  simp only [String.data_append, List.append_assoc] at h1
  have h2 := List.append_cancel_left h1
  obtain ⟨_, c, rest, hc, hdig⟩ := fmt_lu_spec i
  rw [hc] at h2
  simp only [List.cons_append, List.nil_append, List.cons.injEq, true_and] at h2
  rw [h2.1] at hdig
  exact absurd hdig (by decide)

theorem rawRecordNames_nodup (base : String) (n : Nat) :
    ((List.range n).flatMap (rawRecordNames base)).Nodup := by
  rw [List.nodup_flatMap]
  constructor
  · intro x _
    simp only [rawRecordNames, List.nodup_cons, List.mem_singleton, List.not_mem_nil,
      not_false_eq_true, List.nodup_nil, and_true]
    exact plain_name_ne_agc_name base x x
  · apply List.Nodup.pairwise_of_forall_ne (List.nodup_range n)
    intro a _ b _ hab
    simp only [Function.onFun, rawRecordNames]
    intro f h1 h2
    simp only [List.mem_cons, List.mem_singleton, List.not_mem_nil, or_false] at h1 h2
    rcases h1 with h1 | h1 <;> rcases h2 with h2 | h2
    · exact hab (plain_name_inj (h1.symm.trans h2))
    · exact plain_name_ne_agc_name base a b (h1.symm.trans h2)
    · exact plain_name_ne_agc_name base b a (h2.symm.trans h1)
    · exact hab (agc_name_inj (h1.symm.trans h2))

theorem rawRecordNames_length (base : String) (a n : Nat) :
    ((List.range' a n).flatMap (rawRecordNames base)).length = 2 * n := by
  induction n generalizing a with
  | zero => rfl
  | succ k ih =>
    rw [List.range'_succ, List.flatMap_cons, List.length_append, ih]
    simp only [rawRecordNames, List.length_cons, List.length_nil]
    omega

/-- A frame that is not constant has a minimum different from its maximum. -/
theorem NotConstant.min_ne_max {m : Mat} {h w : Nat} (hn : NotConstant m h w) :
    ∃ mn mx, IsFrameMin m h w mn ∧ IsFrameMax m h w mx ∧ mn ≠ mx := by
  obtain ⟨i, j, i2, j2, hi, hj, hi2, hj2, hne⟩ := hn
  obtain ⟨s1, s2⟩ := agcMinMax_spec m h w (by omega) (by omega)
  refine ⟨_, _, s1, s2, ?_⟩
  intro he
  have a1 := s1.2 i j hi hj
  have a2 := s2.2 i j hi hj
  have b1 := s1.2 i2 j2 hi2 hj2
  have b2 := s2.2 i2 j2 hi2 hj2
  omega

/-- One undisturbed pass through the body in RAW16 mode with recording on. -/
theorem iteration_undisturbed (o : Options) (s : Session) (env : Env) (st : LoopState)
    (hmode : o.video_mode = .RAW16) (hrec : o.record_enable = 1)
    (hq : env.qbuf st.iterations = true) (buffer : Nat → uchar)
    (hd : env.dqbuf st.iterations = some buffer)
    (hnc : NotConstant (thermal16 s buffer) s.height s.width)
    (hw : ∀ p, env.imwrite st.iterations p = .written) :
    ∃ st1, iteration o s env st = (stopCondition o env st.iterations st1, st1) ∧
      st1.frame = st.frame + 1 ∧ st1.iterations = st.iterations + 1 ∧
      st1.files = st.files ++
        (if o.video_frames = 1 ∧ st.frame = 0 then [o.filename ++ ".tiff"]
         else rawRecordNames o.filename st.frame) := by
  obtain ⟨mn, mx, hmn, hmx, hne⟩ := hnc.min_ne_max
  obtain ⟨out, e, _⟩ := AGC_ok (thermal16 s buffer) (afterDQBUF (afterQBUF st)).linear
    s.height s.width mn mx hmn hmx hne
  by_cases hc : o.video_frames = 1 ∧ st.frame = 0
  · refine ⟨{ frame := st.frame + 1, linear := out,
              sys := st.sys ++ [.ioctl .QBUF] ++ [.ioctl .DQBUF],
              files := st.files ++ [o.filename ++ ".tiff"],
              iterations := st.iterations + 1 }, ?_, rfl, rfl, by simp [hc]⟩
    simp only [afterDQBUF, afterQBUF] at e
    simp [iteration, hq, hd, processFrame, hmode, e, recordRAW16, hrec, imwrite, hw,
      afterDQBUF, afterQBUF, hc]
  · refine ⟨{ frame := st.frame + 1, linear := out,
              sys := st.sys ++ [.ioctl .QBUF] ++ [.ioctl .DQBUF],
              files := st.files ++ rawRecordNames o.filename st.frame,
              iterations := st.iterations + 1 }, ?_, rfl, rfl, by simp [hc]⟩
    simp only [afterDQBUF, afterQBUF] at e
    simp [iteration, hq, hd, processFrame, hmode, e, recordRAW16, hrec, imwrite, hw,
      afterDQBUF, afterQBUF, hc, rawRecordNames]

/-- An undisturbed RAW16 recording with a limit of at least two frames, seen
from any state in which `d` frames are still missing. -/
theorem captureLoop_undisturbed (o : Options) (s : Session) (env : Env) (N : Nat)
    (hmode : o.video_mode = .RAW16) (hrec : o.record_enable = 1)
    (hlim : o.video_frames = (N : Int)) (hN : 2 ≤ N) (henv : Undisturbed s env N) :
    ∀ (d : Nat) (st : LoopState) (fuel : Nat), st.iterations = st.frame →
      st.frame + d = N → 1 ≤ d → d ≤ fuel →
      ∃ st1, captureLoop o s env fuel st = (.left .frameLimit, st1) ∧
        st1.iterations = N ∧ st1.frame = N ∧
        st1.files = st.files ++ (List.range' st.frame d).flatMap (rawRecordNames o.filename) := by
  intro d
  induction d with
  | zero => intro st fuel _ _ h1; omega
  | succ d ih =>
    intro st fuel hit hfr _ hfuel
    obtain ⟨f, rfl⟩ : ∃ f, fuel = f + 1 := ⟨fuel - 1, by omega⟩
    obtain ⟨hq, ⟨buffer, hd, hnc⟩, hw, hkey⟩ := henv st.iterations (by omega)
    obtain ⟨st1, e, f1, f2, f3⟩ :=
      iteration_undisturbed o s env st hmode hrec hq buffer hd hnc hw
    have hc : ¬ (o.video_frames = 1 ∧ st.frame = 0) := by
      rw [hlim]
      intro h
      have := h.1
      omega
    rw [if_neg hc] at f3
    by_cases hd0 : d = 0
    · subst hd0
      have hstop : stopCondition o env st.iterations st1 = .left .frameLimit := by
        have : o.video_frames > 0 ∧ (st1.frame : Int) + 1 > o.video_frames := by
          rw [hlim, f1]
          constructor <;> omega
        simp [stopCondition, hkey, this]
      rw [hstop] at e
      refine ⟨st1, captureLoop_of_end f e (by simp), by omega, by omega, ?_⟩
      rw [f3]
      simp [List.range']
    · have hstop : stopCondition o env st.iterations st1 = .running := by
        have : ¬ (o.video_frames > 0 ∧ (st1.frame : Int) + 1 > o.video_frames) := by
          rw [hlim, f1]
          omega
        simp [stopCondition, hkey, this]
      rw [hstop] at e
      obtain ⟨st2, e2, g1, g2, g3⟩ := ih st1 f (by omega) (by omega) (by omega) (by omega)
      refine ⟨st2, ?_, g1, g2, ?_⟩
      · rw [captureLoop_of_running f e]
        exact e2
      · rw [g3, f3, f1, List.range'_succ, List.flatMap_cons, List.append_assoc]

/-- An undisturbed RAW16 recording with a limit of one frame. -/
theorem captureLoop_single (o : Options) (s : Session) (env : Env) (fuel : Nat)
    (hmode : o.video_mode = .RAW16) (hrec : o.record_enable = 1)
    (hlim : o.video_frames = 1) (henv : Undisturbed s env 1) (hfuel : 1 ≤ fuel) :
    ∃ st1, captureLoop o s env fuel (initialState s) = (.left .frameLimit, st1) ∧
      st1.iterations = 1 ∧ st1.files = [o.filename ++ ".tiff"] := by
  obtain ⟨f, rfl⟩ : ∃ f, fuel = f + 1 := ⟨fuel - 1, by omega⟩
  obtain ⟨hq, ⟨buffer, hd, hnc⟩, hw, hkey⟩ := henv 0 (by omega)
  obtain ⟨st1, e, f1, f2, f3⟩ :=
    iteration_undisturbed o s env (initialState s) hmode hrec hq buffer hd hnc hw
  have hc : o.video_frames = 1 ∧ (initialState s).frame = 0 := ⟨hlim, rfl⟩
  rw [if_pos hc] at f3
  have hstop : stopCondition o env (initialState s).iterations st1 = .left .frameLimit := by
    have hk : env.waitKey (initialState s).iterations ≠ key_q := hkey
    have : o.video_frames > 0 ∧ (st1.frame : Int) + 1 > o.video_frames := by
      rw [hlim, f1]
      constructor <;> simp [initialState]
    simp [stopCondition, hk, this]
  rw [hstop] at e
  exact ⟨st1, captureLoop_of_end f e (by simp), f2, by rw [f3]; rfl⟩

theorem iteration_exit1 (o : Options) (s : Session) (env : Env) (st : LoopState)
    (step : Step) (h : (iteration o s env st).1 = .exit1 step) :
    step = .qbuf ∨ step = .dqbuf := by
  rcases iteration_cases o s env st with ⟨_, e⟩ | ⟨_, _, e⟩ | ⟨b, f, _, _, hp, e⟩ |
    ⟨b, st1, _, _, hp, e⟩
  · rw [e] at h
    injection h with h
    exact Or.inl h.symm
  · rw [e] at h
    injection h with h
    exact Or.inr h.symm
  · rw [e] at h
    simp at h
  · rw [e] at h
    simp only [stopCondition] at h
    split at h
    · simp at h
    · split at h <;> simp at h

theorem captureLoop_exit1 (o : Options) (s : Session) (env : Env) (step : Step) :
    ∀ (fuel : Nat) (st : LoopState), (captureLoop o s env fuel st).1 = .exit1 step →
      step = .qbuf ∨ step = .dqbuf := by
  intro fuel
  induction fuel with
  | zero => intro st h; simp [captureLoop] at h
  | succ n ih =>
    intro st h
    cases hi : iteration o s env st with
    | mk e st1 =>
      by_cases he : e = .running
      · subst he
        rw [captureLoop_of_running n hi] at h
        exact ih st1 h
      · rw [captureLoop_of_end n hi he] at h
        exact iteration_exit1 o s env st step (by rw [hi]; exact h)

/-- One pass through the body in RAW16 mode with recording on, on a file system
whose writes all fail without an exception. -/
theorem iteration_failed_writes (o : Options) (s : Session) (env : Env) (st : LoopState)
    (hmode : o.video_mode = .RAW16) (hrec : o.record_enable = 1)
    (hq : env.qbuf st.iterations = true) (buffer : Nat → uchar)
    (hd : env.dqbuf st.iterations = some buffer)
    (hnc : NotConstant (thermal16 s buffer) s.height s.width)
    (hw : ∀ p, env.imwrite st.iterations p = .failed) :
    ∃ st1, iteration o s env st = (stopCondition o env st.iterations st1, st1) ∧
      st1.frame = st.frame + 1 ∧ st1.iterations = st.iterations + 1 ∧
      st1.files = st.files := by
  obtain ⟨mn, mx, hmn, hmx, hne⟩ := hnc.min_ne_max
  obtain ⟨out, e, _⟩ := AGC_ok (thermal16 s buffer) (afterDQBUF (afterQBUF st)).linear
    s.height s.width mn mx hmn hmx hne
  refine ⟨{ frame := st.frame + 1, linear := out,
            sys := st.sys ++ [.ioctl .QBUF] ++ [.ioctl .DQBUF],
            files := st.files, iterations := st.iterations + 1 }, ?_, rfl, rfl, rfl⟩
  simp only [afterDQBUF, afterQBUF] at e
  by_cases hc : o.video_frames = 1 ∧ st.frame = 0
  · simp [iteration, hq, hd, processFrame, hmode, e, recordRAW16, hrec, imwrite, hw,
      afterDQBUF, afterQBUF, hc]
  · simp [iteration, hq, hd, processFrame, hmode, e, recordRAW16, hrec, imwrite, hw,
      afterDQBUF, afterQBUF, hc]

/-- A RAW16 recording with a limit of one frame on a file system whose writes all
fail: the loop is left through the frame limit with no file written. -/
theorem captureLoop_single_failed_writes (o : Options) (s : Session) (env : Env)
    (fuel : Nat) (hmode : o.video_mode = .RAW16) (hrec : o.record_enable = 1)
    (hlim : o.video_frames = 1) (hq : env.qbuf 0 = true) (buffer : Nat → uchar)
    (hd : env.dqbuf 0 = some buffer)
    (hnc : NotConstant (thermal16 s buffer) s.height s.width)
    (hw : ∀ p, env.imwrite 0 p = .failed) (hkey : env.waitKey 0 ≠ key_q) :
    ∃ st1, captureLoop o s env (fuel + 1) (initialState s) = (.left .frameLimit, st1) ∧
      st1.iterations = 1 ∧ st1.files = [] := by
  obtain ⟨st1, e, f1, f2, f3⟩ :=
    iteration_failed_writes o s env (initialState s) hmode hrec hq buffer hd hnc hw
  have hstop : stopCondition o env (initialState s).iterations st1 = .left .frameLimit := by
    have hk : env.waitKey (initialState s).iterations ≠ key_q := hkey
    have : o.video_frames > 0 ∧ (st1.frame : Int) + 1 > o.video_frames := by
      rw [hlim, f1]
      constructor <;> simp [initialState]
    simp [stopCondition, hk, this]
  rw [hstop] at e
  exact ⟨st1, captureLoop_of_end fuel e (by simp), f2, by rw [f3]; rfl⟩

theorem plainEnv_undisturbed (n : Nat) : Undisturbed plainSession plainEnv n := by
  intro k _
  refine ⟨rfl, ⟨_, rfl, ⟨0, 0, 0, 1, by decide, by decide, by decide, by decide, by decide⟩⟩,
    fun _ => rfl, by simp [plainEnv, key_q]⟩

/-! ## Claims -/

/-- C1: on a frame whose minimum sample `mn` differs from its maximum sample `mx`,
`AGC_Basic_Linear` returns and has written exactly 0 at every pixel holding `mn`
and exactly 255 at every pixel holding `mx`. -/
theorem AGC_Basic_Linear_min_0_max_255 (input_16 output_8 : Mat) (height width mn mx : Nat)
    (hmn : IsFrameMin input_16 height width mn) (hmx : IsFrameMax input_16 height width mx)
    (hne : mn ≠ mx) :
    ∃ o, AGC_Basic_Linear input_16 output_8 height width = .ok o ∧
      ∀ i j, i < height → j < width →
        (sample16 input_16 i j = mn → o.data i j = 0) ∧
        (sample16 input_16 i j = mx → o.data i j = 255) := by
  obtain ⟨o, e, _, _, hv, _⟩ := AGC_ok input_16 output_8 height width mn mx hmn hmx hne
  refine ⟨o, e, fun i j hi hj => ⟨fun hs => ?_, fun hs => ?_⟩⟩
  · apply Fin.ext
    rw [hv i j hi hj, hs]
    simp
  · apply Fin.ext
    rw [hv i j hi hj, hs]
    obtain ⟨⟨i2, j2, hi2, hj2, e2⟩, _⟩ := hmx
    have := hmn.2 i2 j2 hi2 hj2
    have hpos : 0 < mx - mn := by omega
    rw [Nat.mul_div_cancel _ hpos]
    rfl

/-- Witness of C1 on the frame with samples 10, 20, 30. -/
theorem AGC_Basic_Linear_min_0_max_255_witness :
    ∃ o, AGC_Basic_Linear rampFrame (Mat.filled 1 3 1) 1 3 = .ok o ∧
      ∀ i j, i < 1 → j < 3 →
        (sample16 rampFrame i j = 10 → o.data i j = 0) ∧
        (sample16 rampFrame i j = 30 → o.data i j = 255) :=
  AGC_Basic_Linear_min_0_max_255 rampFrame (Mat.filled 1 3 1) 1 3 10 30
    rampFrame_min rampFrame_max (by decide)

/-- C2 (the code at the failing input): on the constant frame of 256 x 320 pixels
whose bytes are all 0, the divisor `max1 - min1` is 0 where line 103 uses it, and
`AGC_Basic_Linear` ends in the division fault instead of returning a frame; a
Boson320 session in RAW16 mode that receives this frame ends in that fault in
its first iteration. -/
theorem AGC_Basic_Linear_constant_frame_faults :
    AGC_Basic_Linear (Mat.filled 256 320 0) (Mat.filled 256 320 1) 256 320
      = .error .divByZero ∧
    (session (parseArgs plainStack ["./BosonUSB", "sb"]) zeroFrameEnv 1).exit
      = .fault .divByZero := by
  have hmin : IsFrameMin (Mat.filled 256 320 0) 256 320 0 :=
    ⟨⟨0, 0, by decide, by decide, rfl⟩, fun _ _ _ _ => Nat.zero_le _⟩
  have hmax : IsFrameMax (Mat.filled 256 320 0) 256 320 0 :=
    ⟨⟨0, 0, by decide, by decide, rfl⟩, fun _ _ _ _ => Nat.le_refl _⟩
  refine ⟨AGC_fault _ _ 256 320 0 hmin hmax, ?_⟩
  have hs : setup (parseArgs plainStack ["./BosonUSB", "sb"]) zeroFrameEnv = .ok plainSession := rfl
  have hmin2 : IsFrameMin (thermal16 plainSession (fun _ => 0)) plainSession.height
      plainSession.width 0 :=
    ⟨⟨0, 0, by decide, by decide, rfl⟩, fun _ _ _ _ => Nat.zero_le _⟩
  have hmax2 : IsFrameMax (thermal16 plainSession (fun _ => 0)) plainSession.height
      plainSession.width 0 :=
    ⟨⟨0, 0, by decide, by decide, rfl⟩, fun _ _ _ _ => Nat.le_refl _⟩
  have hf := AGC_fault (thermal16 plainSession (fun _ => 0))
    (afterDQBUF (afterQBUF (initialState plainSession))).linear
    plainSession.height plainSession.width 0 hmin2 hmax2
  have hi := iteration_fault (parseArgs plainStack ["./BosonUSB", "sb"]) plainSession zeroFrameEnv
    (initialState plainSession) (fun _ => 0) .divByZero rfl rfl
    (processFrame_fault (parseArgs plainStack ["./BosonUSB", "sb"]) plainSession zeroFrameEnv
      (initialState plainSession).iterations (fun _ => 0) _ .divByZero (by decide) hf)
  rw [session_of_loop hs (captureLoop_of_end 0 hi (by simp))]
  rfl

/-- C3: on a frame whose minimum sample `mn` differs from its maximum sample `mx`,
`AGC_Basic_Linear` returns, and every output pixel `(i, j)` equals
`floor (255 * (s - mn) / (mx - mn))` for the little-endian sample `s` at `(i, j)`;
the arithmetic modulo `2 ^ 32` and the mask to eight bits of the code leave that
value unchanged. -/
theorem AGC_Basic_Linear_pixel_formula (input_16 output_8 : Mat) (height width mn mx : Nat)
    (hmn : IsFrameMin input_16 height width mn) (hmx : IsFrameMax input_16 height width mx)
    (hne : mn ≠ mx) :
    ∃ o, AGC_Basic_Linear input_16 output_8 height width = .ok o ∧
      ∀ i j, i < height → j < width →
        (o.data i j).val = 255 * (sample16 input_16 i j - mn) / (mx - mn) := by
  obtain ⟨o, e, _, _, hv, _⟩ := AGC_ok input_16 output_8 height width mn mx hmn hmx hne
  exact ⟨o, e, hv⟩

/-- Witness of C3 on the frame with samples 10, 20, 30. -/
theorem AGC_Basic_Linear_pixel_formula_witness :
    ∃ o, AGC_Basic_Linear rampFrame (Mat.filled 1 3 1) 1 3 = .ok o ∧
      ∀ i j, i < 1 → j < 3 →
        (o.data i j).val = 255 * (sample16 rampFrame i j - 10) / (30 - 10) :=
  AGC_Basic_Linear_pixel_formula rampFrame (Mat.filled 1 3 1) 1 3 10 30
    rampFrame_min rampFrame_max (by decide)

/-- C4 (counterexample): in RAW16 mode with recording enabled and no quit key,
a run with a frame limit of 3 whose first `VIDIOC_QBUF` fails ends with `exit(1)`
in its first iteration with no file written, and a run with a frame limit of 1
on a file system whose writes fail leaves the loop after one iteration with no
file written. -/
theorem raw16_recording_counterexample :
    main plainStack ["./BosonUSB", "sb", "fcap", "t3", "nshot"] qbufFailEnv 5
      = { exit := .failure .qbuf, loopExit := none,
          sys := [.mkdir "cap", .chdir "cap", .openDevice "/dev/video0", .ioctl .QUERYCAP,
                  .ioctl .S_FMT, .ioctl .REQBUFS, .ioctl .QUERYBUF, .mmap, .ioctl .STREAMON,
                  .ioctl .QBUF],
          files := [], frame := 0, iterations := 1 } ∧
    ∃ st, captureLoop (parseArgs plainStack ["./BosonUSB", "sb", "fcap", "t1", "nshot"])
        plainSession failingWriteEnv 1 (initialState plainSession)
          = (.left .frameLimit, st) ∧
      st.iterations = 1 ∧ st.files = [] :=
  ⟨by decide,
    captureLoop_single_failed_writes
      (parseArgs plainStack ["./BosonUSB", "sb", "fcap", "t1", "nshot"])
      plainSession failingWriteEnv 0 (by decide) (by decide) (by decide) rfl
      (fun k => if k = 0 then 1 else 0) rfl
      ⟨0, 0, 0, 1, by decide, by decide, by decide, by decide, by decide⟩
      (fun _ => rfl) (by decide)⟩

/-- C4 (amended): in RAW16 mode with recording enabled and a frame limit `N >= 1`,
when no quit key is seen, every `VIDIOC_QBUF`, `VIDIOC_DQBUF` and image write
succeeds and no frame is constant, the loop is left through the frame limit after
exactly `N` iterations, and the files written are: for `N = 1` the single file
`<base>.tiff`, which does not start with `<base>_0`; for `N >= 2` the `2 N`
pairwise different files `<base>_i.tiff` and `<base>_agc_i.tiff`, `i < N`. -/
theorem raw16_recording_files (o : Options) (s : Session) (env : Env) (N fuel : Nat)
    (hN : 1 ≤ N) (hmode : o.video_mode = .RAW16) (hrec : o.record_enable = 1)
    (hlim : o.video_frames = (N : Int)) (henv : Undisturbed s env N) (hfuel : N ≤ fuel) :
    ∃ st, captureLoop o s env fuel (initialState s) = (.left .frameLimit, st) ∧
      st.iterations = N ∧
      st.files = expectedRawFiles o.filename N ∧
      (∀ f, f ∈ st.files ↔
        if N = 1 then f = o.filename ++ ".tiff"
        else ∃ i, i < N ∧ (f = o.filename ++ "_" ++ fmt_lu i ++ ".tiff" ∨
          f = o.filename ++ "_agc_" ++ fmt_lu i ++ ".tiff")) ∧
      st.files.Nodup ∧
      st.files.length = (if N = 1 then 1 else 2 * N) ∧
      (N = 1 → ∀ f ∈ st.files, ¬ (o.filename ++ "_0").data <+: f.data) := by
  by_cases h1 : N = 1
  · subst h1
    obtain ⟨st, e, g1, g2⟩ :=
      captureLoop_single o s env fuel hmode hrec (by simpa using hlim) henv hfuel
    refine ⟨st, e, g1, ?_, ?_, ?_, ?_, ?_⟩
    · rw [g2]; simp [expectedRawFiles]
    · intro f; rw [g2]; simp
    · rw [g2]; simp
    · rw [g2]; simp
    · intro _ f hf
      rw [g2] at hf
      simp only [List.mem_singleton] at hf
      subst hf
      simp only [String.data_append]
      rw [List.prefix_append_right_inj]
      decide
  · obtain ⟨st, e, g1, _, g3⟩ :=
      captureLoop_undisturbed o s env N hmode hrec hlim (by omega) henv N (initialState s)
        fuel rfl (by simp [initialState]) hN hfuel
    have hfiles : st.files = (List.range N).flatMap (rawRecordNames o.filename) := by
      rw [g3, List.range_eq_range']
      simp [initialState]
    refine ⟨st, e, g1, ?_, ?_, ?_, ?_, fun h => absurd h h1⟩
    · rw [hfiles]; simp [expectedRawFiles, h1]
    · intro f
      rw [hfiles, if_neg h1]
      simp only [List.mem_flatMap, List.mem_range, rawRecordNames, List.mem_cons,
        List.mem_singleton, List.not_mem_nil, or_false]
    · rw [hfiles]; exact rawRecordNames_nodup o.filename N
    · rw [hfiles, if_neg h1, List.range_eq_range']
      exact rawRecordNames_length o.filename 0 N

/-- Witness of C4 (amended) for a limit of three frames: six files. -/
theorem raw16_recording_files_witness :
    ∃ st, captureLoop (parseArgs plainStack ["./BosonUSB", "fcap", "t3", "nshot"])
        plainSession plainEnv 3 (initialState plainSession) = (.left .frameLimit, st) ∧
      st.iterations = 3 ∧
      st.files = ["shot_0.tiff", "shot_agc_0.tiff", "shot_1.tiff", "shot_agc_1.tiff",
                  "shot_2.tiff", "shot_agc_2.tiff"] ∧
      st.files.length = 6 := by
  obtain ⟨st, e, g1, g2, _, _, g3, _⟩ :=
    raw16_recording_files (parseArgs plainStack ["./BosonUSB", "fcap", "t3", "nshot"])
      plainSession plainEnv 3 3 (by decide) (by decide) (by decide) (by decide)
      (plainEnv_undisturbed 3) (by decide)
  refine ⟨st, e, g1, ?_, ?_⟩
  · rw [g2]; decide
  · rw [g3]; decide

/-- C5 (counterexample): a YUV run left through the quit key ends with
`VIDIOC_STREAMOFF` and `close` and never unmaps the buffer; a run whose first
`VIDIOC_QBUF` fails ends with `exit(1)` right after that call, with neither
stream-off nor `close`; a run left through the quit key whose `VIDIOC_STREAMOFF`
fails ends with `exit(1)` without `close`. -/
theorem teardown_counterexample :
    main plainStack ["./BosonUSB", "y"] quitEnv 3
      = { exit := .success, loopExit := some .quitKey,
          sys := [.openDevice "/dev/video0", .ioctl .QUERYCAP, .ioctl .S_FMT,
                  .ioctl .REQBUFS, .ioctl .QUERYBUF, .mmap, .ioctl .STREAMON,
                  .ioctl .QBUF, .ioctl .DQBUF, .ioctl .STREAMOFF, .close],
          files := [], frame := 0, iterations := 1 } ∧
    main plainStack ["./BosonUSB"] qbufFailEnv 3
      = { exit := .failure .qbuf, loopExit := none,
          sys := [.openDevice "/dev/video0", .ioctl .QUERYCAP, .ioctl .S_FMT,
                  .ioctl .REQBUFS, .ioctl .QUERYBUF, .mmap, .ioctl .STREAMON,
                  .ioctl .QBUF],
          files := [], frame := 0, iterations := 1 } ∧
    main plainStack ["./BosonUSB", "y"] streamoffFailEnv 3
      = { exit := .failure .streamoff, loopExit := some .quitKey,
          sys := [.openDevice "/dev/video0", .ioctl .QUERYCAP, .ioctl .S_FMT,
                  .ioctl .REQBUFS, .ioctl .QUERYBUF, .mmap, .ioctl .STREAMON,
                  .ioctl .QBUF, .ioctl .DQBUF, .ioctl .STREAMOFF],
          files := [], frame := 0, iterations := 1 } := by
  decide

/-- C5 (amended): no run ever calls `munmap`.  Whenever the capture loop is left
through the quit key or the frame limit, the calls of the run are those made up
to there, which hold neither `VIDIOC_STREAMOFF` nor `close`, followed by
`VIDIOC_STREAMOFF` once and then, if that call succeeded, by `close` once; the
run returns `EXIT_SUCCESS` if stream-off succeeded and ends in `exit(1)` without
`close` if it failed.  Whenever a set-up step, `VIDIOC_QBUF` or `VIDIOC_DQBUF`
fails, the run ends in `exit(1)` right after the calls made up to there, which
hold neither `VIDIOC_STREAMOFF` nor `close`. -/
theorem teardown_calls (o : Options) (env : Env) (fuel : Nat) :
    Call.munmap ∉ (session o env fuel).sys ∧
    (∀ s why st, setup o env = .ok s →
      captureLoop o s env fuel (initialState s) = (.left why, st) →
      Call.ioctl .STREAMOFF ∉ st.sys ∧ Call.close ∉ st.sys ∧
      (session o env fuel).loopExit = some why ∧
      (session o env fuel).sys
        = st.sys ++ [.ioctl .STREAMOFF] ++ (if env.streamoff = true then [.close] else []) ∧
      (session o env fuel).exit
        = (if env.streamoff = true then .success else .failure .streamoff)) ∧
    (∀ step sys, setup o env = .error (step, sys) →
      (session o env fuel).exit = .failure step ∧ (session o env fuel).sys = sys ∧
      Call.ioctl .STREAMOFF ∉ sys ∧ Call.close ∉ sys) ∧
    (∀ s step st, setup o env = .ok s →
      captureLoop o s env fuel (initialState s) = (.exit1 step, st) →
      (step = .qbuf ∨ step = .dqbuf) ∧
      (session o env fuel).exit = .failure step ∧ (session o env fuel).sys = st.sys ∧
      Call.ioctl .STREAMOFF ∉ st.sys ∧ Call.close ∉ st.sys) ∧
    ((session o env fuel).exit = .success →
      ∃ before, (session o env fuel).sys = before ++ [.ioctl .STREAMOFF, .close] ∧
        Call.ioctl .STREAMOFF ∉ before ∧ Call.close ∉ before) ∧
    (∀ step, (session o env fuel).exit = .failure step → step ≠ .streamoff →
      Call.ioctl .STREAMOFF ∉ (session o env fuel).sys ∧
      Call.close ∉ (session o env fuel).sys) := by
  cases hs : setup o env with
  | error p =>
    obtain ⟨step, sys⟩ := p
    obtain ⟨⟨q1, q2, q3⟩, _⟩ := setup_error_quiet hs
    rw [session_of_setup_error hs]
    refine ⟨q3, fun _ _ _ h => by simp at h, ?_, fun _ _ _ h => by simp at h,
      fun h => by simp at h, fun _ _ _ => ⟨q1, q2⟩⟩
    intro step2 sys2 h
    injection h with h
    injection h with h1 h2
    subst h1
    subst h2
    exact ⟨rfl, rfl, q1, q2⟩
  | ok s =>
    have hq0 : Quiet (initialState s).sys := setup_ok_quiet hs
    obtain ⟨hq, hne⟩ := captureLoop_quiet o s env fuel (initialState s) hq0
    cases hl : captureLoop o s env fuel (initialState s) with
    | mk e st =>
      have hx := captureLoop_exit1 o s env
      rw [hl] at hq hne
      obtain ⟨q1, q2, q3⟩ := hq
      simp only at q1 q2 q3
      rw [session_of_loop hs hl]
      have hs_inj : ∀ s2, Except.ok s = (Except.ok s2 : Except (Step × List Call) Session) →
          s2 = s := by
        intro s2 h
        injection h with h
        exact h.symm
      refine ⟨?_, ?_, fun _ _ h => by simp at h, ?_, ?_, ?_⟩
      · cases e with
        | running => exact q3
        | fault f => exact q3
        | exit1 step => exact q3
        | left why =>
          simp only [finish, teardown]
          cases env.streamoff <;> simpa using q3
      · intro s2 why st2 h2 hl2
        have := hs_inj s2 h2
        subst this
        rw [hl] at hl2
        injection hl2 with he hst
        subst he
        subst hst
        simp only [finish, teardown]
        cases env.streamoff <;> simp [q1, q2]
      · intro s2 step st2 h2 hl2
        have := hs_inj s2 h2
        subst this
        rw [hl] at hl2
        injection hl2 with he hst
        subst he
        subst hst
        refine ⟨hx step fuel (initialState s2) (by rw [hl]), ?_, ?_, q1, q2⟩
        · simp [finish]
        · simp [finish]
      · cases e with
        | running => exact fun h => by simp [finish] at h
        | fault f => exact fun h => by simp [finish] at h
        | exit1 step => exact fun h => by simp [finish] at h
        | left why =>
          simp only [finish, teardown]
          cases env.streamoff with
          | false => exact fun h => by simp at h
          | true => exact fun _ => ⟨st.sys, by simp, q1, q2⟩
      · cases e with
        | running => exact fun _ h => by simp [finish] at h
        | fault f => exact fun _ h => by simp [finish] at h
        | exit1 step => exact fun _ _ _ => ⟨q1, q2⟩
        | left why =>
          simp only [finish, teardown]
          cases env.streamoff with
          | false =>
            intro step h hn
            simp at h
            exact absurd h.symm hn
          | true =>
            intro step h
            simp at h

/-- C6 (counterexample): a Boson320 session in RAW16 mode on a driver that writes
back 640 x 512: `format` holds 640 x 512 after the call, the globals `width` and
`height` and the output matrix stay at the requested 320 x 256. -/
theorem setup_size_counterexample :
    setup (parseArgs plainStack ["./BosonUSB", "sb"]) adjustingEnv = .ok adjustedSession ∧
    adjustedSession.format.width = 640 ∧ adjustedSession.format.height = 512 ∧
    adjustedSession.width = 320 ∧ adjustedSession.height = 256 ∧
    (thermal16_linear adjustedSession).rows = 256 ∧
    (thermal16_linear adjustedSession).cols = 320 := by
  refine ⟨rfl, rfl, rfl, rfl, rfl, rfl, rfl⟩

/-- C6 (amended): whatever format the driver writes back, after a successful
set-up the globals `width` and `height`, the dimensions of the four frame
matrices and the dimensions passed to `AGC_Basic_Linear` are the requested ones:
320 x 256 or 640 x 512. -/
theorem setup_uses_requested_size (o : Options) (env : Env) (s : Session)
    (h : setup o env = .ok s) :
    s.width = (requestedFormat o).width ∧ s.height = (requestedFormat o).height ∧
    (s.width = 320 ∧ s.height = 256 ∨ s.width = 640 ∧ s.height = 512) ∧
    (thermal16_linear s).rows = (requestedFormat o).height ∧
    (thermal16_linear s).cols = (requestedFormat o).width ∧
    (thermal_rgb s).rows = (requestedFormat o).height ∧
    (thermal_rgb s).cols = (requestedFormat o).width ∧
    (∀ buffer, (thermal16 s buffer).rows = (requestedFormat o).height ∧
      (thermal16 s buffer).cols = (requestedFormat o).width ∧
      (thermal_luma s buffer).rows
        = (requestedFormat o).height + (requestedFormat o).height / 2 ∧
      (thermal_luma s buffer).cols = (requestedFormat o).width) ∧
    (∀ k buffer st, o.video_mode = .RAW16 →
      processFrame o s env k buffer st
        = match AGC_Basic_Linear (thermal16 s buffer) st.linear
            (requestedFormat o).height (requestedFormat o).width with
          | .ok out => recordRAW16 o env k { st with linear := out }
          | .error e => .error e) := by
  obtain ⟨hw, hh, _, _⟩ := setup_ok h
  refine ⟨hw, hh, ?_, ?_, ?_, ?_, ?_, ?_, ?_⟩
  · rw [hw, hh]
    unfold requestedFormat
    split
    · split <;> simp
    · simp
  · simp [thermal16_linear, Mat.filled, hh]
  · simp [thermal16_linear, Mat.filled, hw]
  · simp [thermal_rgb, Mat.filled, hh]
  · simp [thermal_rgb, Mat.filled, hw]
  · intro buffer
    simp [thermal16, thermal_luma, hh, hw]
  · intro k buffer st hm
    simp only [processFrame, hm, if_true, hh, hw]

/-- Witness of C6 (amended) on the driver that writes back 640 x 512. -/
theorem setup_uses_requested_size_witness :
    adjustedSession.width = 320 ∧ adjustedSession.height = 256 ∧
    adjustedSession.format.width = 640 ∧ adjustedSession.format.height = 512 :=
  have h := setup_uses_requested_size (parseArgs plainStack ["./BosonUSB", "sb"]) adjustingEnv
    adjustedSession rfl
  ⟨h.1, h.2.1, rfl, rfl⟩

/-- C7 (counterexample): with every image write failing, a YUV run with a limit
of two frames still counts two frames and writes no file, and the RAW16 recording
branch moves the counter from 0 to 1 without a file written. -/
theorem frame_counter_counterexample :
    (main plainStack ["./BosonUSB", "y", "fcap", "t2"] failingWriteEnv 5).frame = 2 ∧
    (main plainStack ["./BosonUSB", "y", "fcap", "t2"] failingWriteEnv 5).files = [] ∧
    ∃ st1, recordRAW16 (parseArgs plainStack ["./BosonUSB", "fcap", "t2"]) failingWriteEnv 0
        (initialState plainSession) = .ok st1 ∧ st1.frame = 1 ∧ st1.files = [] :=
  ⟨by decide, by decide, _, rfl, rfl, rfl⟩

/-- C7 (amended): in both recording branches, when recording is enabled and no
call of `imwrite` throws, the branch ends normally with the frame counter
incremented by one, whether the writes succeeded or failed. -/
theorem record_increments_frame (o : Options) (env : Env) (k : Nat) (st : LoopState)
    (hrec : o.record_enable = 1) (hret : ∀ p, env.imwrite k p ≠ .threw) :
    (∃ st1, recordRAW16 o env k st = .ok st1 ∧ st1.frame = st.frame + 1) ∧
    (∃ st2, recordYUV o env k st = .ok st2 ∧ st2.frame = st.frame + 1) := by
  constructor
  · unfold recordRAW16
    simp only [hrec, if_true]
    by_cases hc : o.video_frames = 1 ∧ st.frame = 0
    · simp only [hc, and_self, if_true]
      obtain ⟨a, e1, f1⟩ := imwrite_returns (o.filename ++ ".tiff") st (hret _)
      rw [e1]
      exact ⟨_, rfl, by simp [f1, hc.2]⟩
    · simp only [if_neg hc]
      obtain ⟨a, e1, f1⟩ :=
        imwrite_returns (o.filename ++ "_" ++ fmt_lu st.frame ++ ".tiff") st (hret _)
      obtain ⟨b, e2, f2⟩ :=
        imwrite_returns (o.filename ++ "_agc_" ++ fmt_lu st.frame ++ ".tiff") a (hret _)
      rw [e1]
      simp only
      rw [e2]
      exact ⟨_, rfl, by simp [f1, f2]⟩
  · unfold recordYUV
    simp only [hrec, if_true]
    obtain ⟨a, e1, f1⟩ :=
      imwrite_returns (o.thermal_sensor_name ++ "_yuv_" ++ fmt_lu st.frame ++ ".tiff") st
        (hret _)
    rw [e1]
    exact ⟨_, rfl, by simp [f1]⟩

/-- Witness of C7 (amended) on the file system whose writes all fail. -/
theorem record_increments_frame_witness :
    (∃ st1, recordRAW16 (parseArgs plainStack ["./BosonUSB", "fcap", "t2"]) failingWriteEnv 0
        (initialState plainSession) = .ok st1 ∧ st1.frame = 0 + 1) ∧
    (∃ st2, recordYUV (parseArgs plainStack ["./BosonUSB", "fcap", "t2"]) failingWriteEnv 0
        (initialState plainSession) = .ok st2 ∧ st2.frame = 0 + 1) :=
  record_increments_frame (parseArgs plainStack ["./BosonUSB", "fcap", "t2"]) failingWriteEnv 0
    (initialState plainSession) (by decide) (fun _ => by simp [failingWriteEnv])

/-- C8: on an input frame whose minimum differs from its maximum, the calls of
`AGC_Basic_Linear` on two output matrices with arbitrary prior contents both
return and agree on every one of the `height x width` output pixels, and a second
call on the same input leaves the output of the first call as it is. -/
theorem AGC_Basic_Linear_ignores_prior_output (input_16 out1 out2 : Mat)
    (height width mn mx : Nat)
    (hmn : IsFrameMin input_16 height width mn) (hmx : IsFrameMax input_16 height width mx)
    (hne : mn ≠ mx) :
    ∃ o1 o2, AGC_Basic_Linear input_16 out1 height width = .ok o1 ∧
      AGC_Basic_Linear input_16 out2 height width = .ok o2 ∧
      (∀ i j, i < height → j < width → o1.data i j = o2.data i j) ∧
      AGC_Basic_Linear input_16 o1 height width = .ok o1 := by
  obtain ⟨o1, e1, _, _, hv1, _⟩ := AGC_ok input_16 out1 height width mn mx hmn hmx hne
  obtain ⟨o2, e2, _, _, hv2, _⟩ := AGC_ok input_16 out2 height width mn mx hmn hmx hne
  obtain ⟨o3, e3, hr3, hc3, hv3, hf3⟩ := AGC_ok input_16 o1 height width mn mx hmn hmx hne
  refine ⟨o1, o2, e1, e2, ?_, ?_⟩
  · intro i j hi hj
    apply Fin.ext
    rw [hv1 i j hi hj, hv2 i j hi hj]
  · rw [e3]
    have hd : o3.data = o1.data := by
      funext i j
      by_cases hin : i < height ∧ j < width
      · apply Fin.ext
        rw [hv3 i j hin.1 hin.2, hv1 i j hin.1 hin.2]
      · exact hf3 i j hin
    cases o3
    cases o1
    simp only at hr3 hc3 hd
    subst hr3
    subst hc3
    subst hd
    rfl

/-- Witness of C8 on the frame with samples 10, 20, 30 and two different prior
contents of the output matrix. -/
theorem AGC_Basic_Linear_ignores_prior_output_witness :
    ∃ o1 o2, AGC_Basic_Linear rampFrame (Mat.filled 1 3 1) 1 3 = .ok o1 ∧
      AGC_Basic_Linear rampFrame (Mat.filled 1 3 77) 1 3 = .ok o2 ∧
      (∀ i j, i < 1 → j < 3 → o1.data i j = o2.data i j) ∧
      AGC_Basic_Linear rampFrame o1 1 3 = .ok o1 :=
  AGC_Basic_Linear_ignores_prior_output rampFrame (Mat.filled 1 3 1) (Mat.filled 1 3 77) 1 3
    10 30 rampFrame_min rampFrame_max (by decide)

/-- C9 (the code at the failing input): with the arguments of the usage example
`./BosonUSB sB 1` the option loop leaves `video` at its default and `main` opens
`/dev/video0`, not `/dev/video1`; only an argument that starts with the letter v,
as in `v1`, selects another port. -/
theorem main_digit_argument_opens_video0 :
    (parseArgs plainStack ["./BosonUSB", "sB", "1"]).video = "/dev/video0" ∧
    (main plainStack ["./BosonUSB", "sB", "1"] plainEnv 0).sys.head?
      = some (Call.openDevice "/dev/video0") ∧
    (parseArgs plainStack ["./BosonUSB", "sB", "v1"]).video = "/dev/video1" := by
  decide

/-- C10: with recording disabled and a positive frame limit, after any number of
iterations the frame counter is 0 and the loop has not been left through the
frame limit: it is still running, or it ended through the quit key, through a
failed `VIDIOC_QBUF` or `VIDIOC_DQBUF`, or through the division fault of
`AGC_Basic_Linear`. -/
theorem no_recording_never_reaches_frame_limit (o : Options) (s : Session) (env : Env)
    (fuel : Nat) (hrec : o.record_enable = 0) (hlim : 0 < o.video_frames) :
    (captureLoop o s env fuel (initialState s)).2.frame = 0 ∧
    (captureLoop o s env fuel (initialState s)).1 ≠ .left .frameLimit ∧
    ((captureLoop o s env fuel (initialState s)).1 = .running ∨
      (captureLoop o s env fuel (initialState s)).1 = .left .quitKey ∨
      (captureLoop o s env fuel (initialState s)).1 = .exit1 .qbuf ∨
      (captureLoop o s env fuel (initialState s)).1 = .exit1 .dqbuf ∨
      (captureLoop o s env fuel (initialState s)).1 = .fault .divByZero) := by
  obtain ⟨h1, h2⟩ := captureLoop_not_recording o s env hrec hlim fuel (initialState s) rfl
  refine ⟨h1, ?_, h2⟩
  rcases h2 with h | h | h | h | h <;> rw [h] <;> simp

/-- Witness of C10 on a run without recording and with a frame limit of 5. -/
theorem no_recording_never_reaches_frame_limit_witness :
    (captureLoop (parseArgs plainStack ["./BosonUSB", "t5"]) plainSession plainEnv 7
      (initialState plainSession)).2.frame = 0 ∧
    (captureLoop (parseArgs plainStack ["./BosonUSB", "t5"]) plainSession plainEnv 7
      (initialState plainSession)).1 ≠ .left .frameLimit :=
  have h := no_recording_never_reaches_frame_limit
    (parseArgs plainStack ["./BosonUSB", "t5"]) plainSession plainEnv 7 (by decide) (by decide)
  ⟨h.1, h.2.1⟩

end BosonUSB
